import Mathlib

/-!
Verification development for the `bnf_stock` equity-screening and backtesting
repository.  The Python sources are embedded shallowly: prices and volumes are
rationals, Python's `None` sentinel becomes `Option`, and each indicator or
simulator is a Lean function mirroring the corresponding Python function.
-/

attribute [local semireducible] Rat.add Rat.mul Rat.sub Rat.inv

set_option maxRecDepth 100000

namespace BnfStock

/-- One daily OHLCV bar of the input series (`timeseries` entries in the
sources).  The date key is bookkeeping only (it never influences any verified
computation) and is omitted. -/
structure Bar where
  «open» : ℚ
  high : ℚ
  low : ℚ
  close : ℚ
  volume : ℚ
deriving DecidableEq

/-- Exit classifications produced by the tiered backtests of
`momentum_trend.backtest_stocks` and `align_momentum.backtest_stocks`. -/
inductive ExitReason
  | stop_loss
  | take_profit_1
  | take_profit_2
  | holding_50
  | holding_100
deriving DecidableEq

/-- One partial realization of the position: the fraction of the position that
was closed, the price it was closed at, and its classification.  The Python
code folds these directly into `total_profit`; the trace is kept so that the
realized fractions can be inspected. -/
structure Ev where
  frac : ℚ
  price : ℚ
  reason : ExitReason
deriving DecidableEq

/-- Loop state of the per-stock simulation in `backtest_stocks`
(`remaining_position`, `total_profit`, `exit_reason`), plus the ghost trace of
realizations. -/
structure St where
  remaining : ℚ
  total_profit : ℚ
  exit_reason : Option ExitReason
  events : List Ev
deriving DecidableEq

/-- Percentage return of price `p` relative to the entry price:
`((p - entry_price) / entry_price) * 100` as written in the sources. -/
def pct (entry p : ℚ) : ℚ := (p - entry) / entry * 100

/-- Generic per-bar loop with early exit: the Python `for`-loop whose body
returns the updated state and whether it executed `break`. -/
def runLoop {σ : Type} (step : σ → Bar → σ × Bool) : List Bar → σ → σ
  | [], st => st
  | b :: bs, st =>
    match step st b with
    | (st2, true) => st2
    | (st2, false) => runLoop step bs st2

/-- One iteration of the two-tier loop body shared verbatim by
`momentum_trend.backtest_stocks` (its `single_profit_cut = False` branch,
lines 577-621) and `align_momentum.backtest_stocks` (lines 737-759): the
stop-loss check comes first and breaks; otherwise tier 1 realizes 50% when
the position is full and the high reaches `take_profit_1`; then, on the same
bar, tier 2 realizes the remaining 50% and breaks when the position is half
and the high reaches `take_profit_2`.  (The `first_exit_date` bookkeeping of
`momentum_trend` is derivable from the head of the event trace and is not
re-modelled.) -/
def stepTiered (entry stop tp1 tp2 : ℚ) (st : St) (b : Bar) : St × Bool :=
  if b.low ≤ stop then
    (⟨0, st.total_profit + st.remaining * pct entry stop, some .stop_loss,
      st.events ++ [⟨st.remaining, stop, .stop_loss⟩]⟩, true)
  else
    let st1 :=
      if st.remaining = 1 ∧ tp1 ≤ b.high then
        ⟨1/2, st.total_profit + 1/2 * pct entry tp1, st.exit_reason,
         st.events ++ [⟨1/2, tp1, .take_profit_1⟩]⟩
      else st
    if st1.remaining = 1/2 ∧ tp2 ≤ b.high then
      (⟨0, st1.total_profit + 1/2 * pct entry tp2, some .take_profit_2,
        st1.events ++ [⟨1/2, tp2, .take_profit_2⟩]⟩, true)
    else (st1, false)

/-- One iteration of the single-tier loop body of
`momentum_trend.backtest_stocks` (`single_profit_cut = True`, lines 577-601):
stop-loss first, else full liquidation at `take_profit_2`. -/
def stepSingle (entry stop tp2 : ℚ) (st : St) (b : Bar) : St × Bool :=
  if b.low ≤ stop then
    (⟨0, st.total_profit + st.remaining * pct entry stop, some .stop_loss,
      st.events ++ [⟨st.remaining, stop, .stop_loss⟩]⟩, true)
  else
    if st.remaining = 1 ∧ tp2 ≤ b.high then
      (⟨0, st.total_profit + 1 * pct entry tp2, some .take_profit_2,
        st.events ++ [⟨1, tp2, .take_profit_2⟩]⟩, true)
    else (st, false)

/-- End-of-data close-out in `backtest_stocks`: any position still held is
realized at the final close and classified `holding_100` or `holding_50`. -/
def closeout (entry lastClose : ℚ) (st : St) : St :=
  if 0 < st.remaining then
    ⟨st.remaining, st.total_profit + st.remaining * pct entry lastClose,
     some (if st.remaining = 1 then ExitReason.holding_100 else ExitReason.holding_50),
     st.events ++ [⟨st.remaining, lastClose,
       if st.remaining = 1 then ExitReason.holding_100 else ExitReason.holding_50⟩]⟩
  else st

/-- Result record assembled by `backtest_stocks` for one stock (the
`backtest` dict): simulation entry price, realized return percentage,
exit classification, plus the ghost trace of realizations. -/
structure BtResult where
  entry : ℚ
  profit : ℚ
  exit_reason : Option ExitReason
  events : List Ev
deriving DecidableEq

/-- The per-stock position simulation of `momentum_trend.backtest_stocks`
(lines 545-649) and, with `single = false`, of
`align_momentum.backtest_stocks` (lines 713-780): skip when there is no bar
after the signal bar, enter at the next bar's open, skip when that open is
zero, scan the remaining bars with the tiered (or single-tier) step, and
close any leftover position out at the final close. -/
def simulate (single : Bool) (ts : List Bar) (signal_idx : ℕ) (stop tp1 tp2 : ℚ) :
    Option BtResult :=
  match ts[signal_idx + 1]? with
  | none => none
  | some entryBar =>
    if entryBar.«open» = 0 then none
    else
      let entry := entryBar.«open»
      let bars := ts.drop (signal_idx + 1)
      let stepF := if single then stepSingle entry stop tp2 else stepTiered entry stop tp1 tp2
      let st := runLoop stepF bars ⟨1, 0, none, []⟩
      let lastClose := ((bars.getLast?).getD entryBar).close
      let fin := closeout entry lastClose st
      some ⟨entry, fin.total_profit, fin.exit_reason, fin.events⟩

namespace BnfBackTest

/-- Loop state of `BNFBacktester.simulate_trading` in `bnf_stock_back_test.py`
(`position`, `total_profit`, `sold_level1`, `sold_level2`). -/
structure LoopSt where
  position : ℚ
  total_profit : ℚ
  sold_level1 : Bool
  sold_level2 : Bool
deriving DecidableEq

/-- One iteration of the daily loop of `BNFBacktester.simulate_trading`
(lines 140-180): stop-loss first (full exit at the stop price, break); else
tier 1 sells 20% once (`position -= 0.2`) when the high reaches level 1;
then tier 2 sells the whole remainder and breaks when the high reaches
level 2.  A `None` or zero take-profit level is falsy in Python and skips
its check.  Profits here are absolute price differences times position. -/
def stepBnf (entry stop : ℚ) (tp1 tp2 : Option ℚ) (st : LoopSt) (b : Bar) : LoopSt × Bool :=
  if b.low ≤ stop ∧ 0 < st.position then
    (⟨0, st.total_profit + (stop - entry) * st.position, st.sold_level1, st.sold_level2⟩, true)
  else
    let st1 :=
      match tp1 with
      | some p1 =>
        if ¬ st.sold_level1 ∧ p1 ≠ 0 ∧ p1 ≤ b.high ∧ 0 < st.position then
          ⟨st.position - 1/5, st.total_profit + (p1 - entry) * (1/5), true, st.sold_level2⟩
        else st
      | none => st
    match tp2 with
    | some p2 =>
      if ¬ st1.sold_level2 ∧ p2 ≠ 0 ∧ p2 ≤ b.high ∧ 0 < st1.position then
        (⟨0, st1.total_profit + (p2 - entry) * st1.position, st1.sold_level1, true⟩, true)
      else (st1, false)
    | none => (st1, false)

/-- `BNFBacktester.simulate_trading` (lines 103-214): `entry` is the price
stored in the loaded signal record (`stock_info['entry_price']`), `bars` are
the daily bars fetched for the 30 days after the signal date.  It skips
(returns `none`) only when no price data exists; any position left after the
loop is sold at the last close.  Returns `(total_profit, profit_rate)`;
exit-date/reason bookkeeping is omitted. -/
def simulate_trading (entry stop : ℚ) (tp1 tp2 : Option ℚ) (bars : List Bar) :
    Option (ℚ × ℚ) :=
  match bars with
  | [] => none
  | b0 :: _ =>
    let st := runLoop (stepBnf entry stop tp1 tp2) bars ⟨1, 0, false, false⟩
    let fin :=
      if 0 < st.position then
        (⟨0, st.total_profit + (((bars.getLast?).getD b0).close - entry) * st.position,
          st.sold_level1, st.sold_level2⟩ : LoopSt)
      else st
    some (fin.total_profit, fin.total_profit / entry * 100)

end BnfBackTest

/-- Concrete two-bar series used as the C1 witness run. -/
def c1Ts : List Bar :=
  [⟨1000, 1000, 1000, 1000, 100⟩, ⟨1000, 1000, 950, 1000, 100⟩]

/-- The result of the C1 witness run. -/
def c1Res : BtResult :=
  ⟨1000, 0, some .holding_100, [⟨1, 1000, .holding_100⟩]⟩

/-- Concrete series realizing the C3 scenario: signal bar, entry bar with
open 1000, a bar reaching tier 1 (1130), then a bar reaching tier 2 (1210). -/
def c3Ts : List Bar :=
  [⟨1000, 1000, 950, 1000, 100⟩, ⟨1000, 1000, 950, 1000, 100⟩,
   ⟨1000, 1130, 950, 1100, 100⟩, ⟨1100, 1210, 1100, 1200, 100⟩]

/-- The trailing window `data[i-period+1 : i+1]` used by every windowed
indicator (only evaluated at `i + 1 ≥ period`). -/
def window {α : Type} (data : List α) (period i : ℕ) : List α :=
  (data.drop (i + 1 - period)).take period

namespace Ind

/-- `TechnicalIndicators.calculate_ma` of momentum_trend.py (lines 30-39) and
bollinger_volume.py (lines 31-40): simple moving average over plain numeric
data; all-None when the series is shorter than the period, None for the
warm-up indices, else the mean of the trailing window. -/
def calculate_ma (data : List ℚ) (period : ℕ) : List (Option ℚ) :=
  if data.length < period then List.replicate data.length none
  else
    (List.range data.length).map (fun i =>
      if i + 1 < period then none
      else some ((window data period i).sum / period))

/-- The running EMA recurrence `ema = (data[i] - prev) * multiplier + prev`. -/
def emaFrom (m : ℚ) (prev : ℚ) : List ℚ → List ℚ
  | [] => []
  | x :: xs =>
    let e := (x - prev) * m + prev
    e :: emaFrom m e xs

/-- `TechnicalIndicators.calculate_ema` (textually identical in
momentum_trend.py, align_momentum.py, bollinger_volume.py and, modulo the
placement of the None padding, macd_rsi_separation.py): all-None when the
series is shorter than the period; else a None warm-up of length
`period - 1`, then the SMA of the first `period` samples, then the EMA
recurrence with multiplier `2 / (period + 1)`. -/
def calculate_ema (data : List ℚ) (period : ℕ) : List (Option ℚ) :=
  if data.length < period then List.replicate data.length none
  else
    let m : ℚ := 2 / (period + 1)
    let sma := (data.take period).sum / period
    List.replicate (period - 1) none ++
      (sma :: emaFrom m sma (data.drop period)).map some

/-- `TechnicalIndicators.calculate_macd` of momentum_trend.py (lines 61-77)
and bollinger_volume.py (lines 91-107): the MACD line is fast EMA − slow EMA
where both are defined, None elsewhere; the signal line is the EMA of the
MACD line with every `None` replaced by `0`
(`valid_macd = [m if m is not None else 0 for m in macd_line]`). -/
def calculate_macd (data : List ℚ) (fast slow signal : ℕ) :
    List (Option ℚ) × List (Option ℚ) :=
  let fast_ema := calculate_ema data fast
  let slow_ema := calculate_ema data slow
  let macd_line := List.zipWith (fun f s =>
    match f, s with
    | some f, some s => some (f - s)
    | _, _ => none) fast_ema slow_ema
  let valid_macd := macd_line.map (fun mo => mo.getD 0)
  let signal_line := calculate_ema valid_macd signal
  (macd_line, signal_line)

/-- `TechnicalIndicators.find_highest` of momentum_trend.py (lines 80-89):
the maximum of the trailing window, None-padded like the SMA. -/
def find_highest (data : List ℚ) (period : ℕ) : List (Option ℚ) :=
  if data.length < period then List.replicate data.length none
  else
    (List.range data.length).map (fun i =>
      if i + 1 < period then none
      else (window data period i).max?)

/-- The RSI formula used everywhere in the repository:
`100` if the average loss is zero, else `100 - 100 / (1 + avg_gain/avg_loss)`. -/
def rsiOf (avg_gain avg_loss : ℚ) : ℚ :=
  if avg_loss = 0 then 100 else 100 - 100 / (1 + avg_gain / avg_loss)

/-- The Wilder-smoothing loop of `calculate_rsi`: one RSI value per remaining
(gain, loss) pair, with `avg = (avg*(period-1) + new) / period`. -/
def rsiSeq (period : ℕ) : List (ℚ × ℚ) → ℚ → ℚ → List ℚ
  | [], _, _ => []
  | (g, l) :: rest, avg_gain, avg_loss =>
    let ag := (avg_gain * (period - 1) + g) / period
    let al := (avg_loss * (period - 1) + l) / period
    rsiOf ag al :: rsiSeq period rest ag al

/-- `TechnicalIndicators.calculate_rsi` of bollinger_volume.py (lines
110-144); the `rsi_values` list of align_momentum.calculate_rsi (lines
199-236) and of macd_rsi_separation.calculate_rsi (lines 67-101) is built by
the same code.  Note the result has length `len(data) - period + 1`, not
`len(data)`: one leading None, the seeded RSI over the first `period`
deltas, then one Wilder-smoothed value per further delta. -/
def calculate_rsi (data : List ℚ) (period : ℕ) : List (Option ℚ) :=
  if data.length < period + 1 then List.replicate data.length none
  else
    let deltas := List.zipWith (fun cur prev => cur - prev) (data.drop 1) data
    let gains := deltas.map (fun d => max d 0)
    let losses := deltas.map (fun d => max (-d) 0)
    let avg_gain := (gains.take period).sum / period
    let avg_loss := (losses.take period).sum / period
    none :: some (rsiOf avg_gain avg_loss) ::
      (rsiSeq period ((gains.drop period).zip (losses.drop period)) avg_gain avg_loss).map some

end Ind

namespace AlignMomentum

/-- `TechnicalIndicators.calculate_ma` of align_momentum.py (lines 31-46):
like the plain SMA, but the input may itself contain None values; a window
is averaged only when all `period` of its values are defined
(`len(valid_values) == period`), otherwise the output is None. -/
def calculate_ma (data : List (Option ℚ)) (period : ℕ) : List (Option ℚ) :=
  if data.length < period then List.replicate data.length none
  else
    (List.range data.length).map (fun i =>
      if i + 1 < period then none
      else
        let valid := (window data period i).filterMap id
        if valid.length = period then some (valid.sum / period) else none)

/-- `TechnicalIndicators.calculate_stochastic` of align_momentum.py (lines
49-73): `%K = (close - period_low) / (period_high - period_low) * 100`, with
the substitute value 50 when the trailing high/low range is zero; `%D` is
the (None-aware) moving average of `%K`. -/
def calculate_stochastic (highs lows closes : List ℚ) (k_period d_period : ℕ) :
    List (Option ℚ) × List (Option ℚ) :=
  if closes.length < k_period then
    (List.replicate closes.length none, List.replicate closes.length none)
  else
    let k_values := (List.range closes.length).map (fun i =>
      if i + 1 < k_period then none
      else
        let period_high := (window highs k_period i).max?.getD 0
        let period_low := (window lows k_period i).min?.getD 0
        if period_high = period_low then some 50
        else some ((closes[i]?.getD 0 - period_low) / (period_high - period_low) * 100))
    (k_values, calculate_ma k_values d_period)

/-- The `tr_list` local of `calculate_adx` (align_momentum.py lines 84-91):
a leading None, then the True Range
`max(high-low, |high-prev_close|, |low-prev_close|)` per bar. -/
def tr_list (highs lows closes : List ℚ) : List (Option ℚ) :=
  none :: (List.range (closes.length - 1)).map (fun j =>
    let i := j + 1
    some (max (highs[i]?.getD 0 - lows[i]?.getD 0)
      (max |highs[i]?.getD 0 - closes[i-1]?.getD 0| |lows[i]?.getD 0 - closes[i-1]?.getD 0|)))

/-- The `plus_dm` local of `calculate_adx` (lines 93-109): a leading None,
then `up_move` when it exceeds the down move and is positive, else 0. -/
def plus_dm (highs lows : List ℚ) : List (Option ℚ) :=
  none :: (List.range (highs.length - 1)).map (fun j =>
    let i := j + 1
    let up := highs[i]?.getD 0 - highs[i-1]?.getD 0
    let down := lows[i-1]?.getD 0 - lows[i]?.getD 0
    if down < up ∧ 0 < up then some up else some 0)

/-- The `minus_dm` local of `calculate_adx` (lines 93-109). -/
def minus_dm (highs lows : List ℚ) : List (Option ℚ) :=
  none :: (List.range (highs.length - 1)).map (fun j =>
    let i := j + 1
    let up := highs[i]?.getD 0 - highs[i-1]?.getD 0
    let down := lows[i-1]?.getD 0 - lows[i]?.getD 0
    if up < down ∧ 0 < down then some down else some 0)

/-- `TechnicalIndicators._smooth` of align_momentum.py (lines 144-150): mean
of the defined values in the trailing window, 0 before the warm-up or when
the window holds no defined value. -/
def smooth (data : List (Option ℚ)) (period : ℕ) (index : ℕ) : ℚ :=
  if index + 1 < period then 0
  else
    let valid := (window data period index).filterMap id
    if valid.length = 0 then 0 else valid.sum / valid.length

/-- The `atr` local of `calculate_adx` (line 112): the None-aware moving
average of the True Range list. -/
def atr (highs lows closes : List ℚ) (period : ℕ) : List (Option ℚ) :=
  calculate_ma (tr_list highs lows closes) period

/-- The `plus_di_list` local of `calculate_adx` (lines 113-124):
`+DI = smoothed +DM / ATR * 100` where the ATR is defined and nonzero,
None otherwise — including when the ATR is zero. -/
def plus_di_list (highs lows closes : List ℚ) (period : ℕ) : List (Option ℚ) :=
  let a := atr highs lows closes period
  (List.range a.length).map (fun i =>
    match a[i]? with
    | some (some av) =>
      if av ≠ 0 then some (smooth (plus_dm highs lows) period i / av * 100) else none
    | _ => none)

/-- The `minus_di_list` local of `calculate_adx` (lines 113-124). -/
def minus_di_list (highs lows closes : List ℚ) (period : ℕ) : List (Option ℚ) :=
  let a := atr highs lows closes period
  (List.range a.length).map (fun i =>
    match a[i]? with
    | some (some av) =>
      if av ≠ 0 then some (smooth (minus_dm highs lows) period i / av * 100) else none
    | _ => none)

/-- The `dx_list` local of `calculate_adx` (lines 127-137):
`DX = |+DI - -DI| / (+DI + -DI) * 100`, 0 when the DI sum is zero, None when
either DI is None. -/
def dx_list (highs lows closes : List ℚ) (period : ℕ) : List (Option ℚ) :=
  List.zipWith (fun p m =>
    match p, m with
    | some p, some m => if p + m = 0 then some 0 else some (|p - m| / (p + m) * 100)
    | _, _ => none)
    (plus_di_list highs lows closes period) (minus_di_list highs lows closes period)

/-- `TechnicalIndicators.calculate_adx` of align_momentum.py (lines 76-142):
all-None when the series is shorter than `period + 1`, else the None-aware
moving average of the DX list. -/
def calculate_adx (highs lows closes : List ℚ) (period : ℕ) : List (Option ℚ) :=
  if closes.length < period + 1 then List.replicate closes.length none
  else calculate_ma (dx_list highs lows closes period) period

/-- `TechnicalIndicators.calculate_rsi` of align_momentum.py (lines 199-236):
the RSI list (identical construction to bollinger_volume's, embedded once as
`Ind.calculate_rsi`) together with its None-aware moving-average signal
line. -/
def calculate_rsi (prices : List ℚ) (period signal_period : ℕ) :
    List (Option ℚ) × List (Option ℚ) :=
  if prices.length < period + 1 then
    (List.replicate prices.length none, List.replicate prices.length none)
  else
    let rsi_values := Ind.calculate_rsi prices period
    (rsi_values, calculate_ma rsi_values signal_period)

end AlignMomentum

namespace MacdRsiSeparation

/-- Element `i` of the MACD line of macd_rsi_separation.py (lines 46-51):
fast EMA minus slow EMA where both are defined, None otherwise. -/
def macdElem (prices : List ℚ) (fast slow : ℕ) (i : ℕ) : Option ℚ :=
  match (Ind.calculate_ema prices fast)[i]?, (Ind.calculate_ema prices slow)[i]? with
  | some (some f), some (some s) => some (f - s)
  | _, _ => none

/-- The `macd_line` local of macd_rsi_separation.calculate_macd, built by
indexing the two EMA lists over `range(len(prices))`. -/
def macdLine (prices : List ℚ) (fast slow : ℕ) : List (Option ℚ) :=
  (List.range prices.length).map (macdElem prices fast slow)

/-- `TechnicalIndicators.calculate_macd` of macd_rsi_separation.py (lines
37-64): all-None pair when the series is shorter than `slow + signal`; the
MACD line as usual; the signal line is the EMA of the *compressed* list of
defined MACD values (`valid_macd = [m for m in macd_line if m is not None]`),
re-padded with one None per undefined MACD entry — so here undefinedness
does propagate into the signal line. -/
def calculate_macd (prices : List ℚ) (fast slow signal : ℕ) :
    List (Option ℚ) × List (Option ℚ) :=
  if prices.length < slow + signal then
    (List.replicate prices.length none, List.replicate prices.length none)
  else
    let macd_line := macdLine prices fast slow
    let valid_macd := macd_line.filterMap id
    if valid_macd.length < signal then (macd_line, List.replicate prices.length none)
    else
      let signal_ema := Ind.calculate_ema valid_macd signal
      let none_count := macd_line.countP (fun m => m.isNone)
      (macd_line, List.replicate none_count none ++ signal_ema)

end MacdRsiSeparation

namespace MomentumTrend

/-- `StockScreener._check_strategy_conditions` of momentum_trend.py (lines
358-402): index-range guard, None guard, then the four staged conditions
(trend filter, 20-day-high proximity 95%-102%, volume at least twice the
20-day average, MACD above Signal); returns (all passed, stage reached).
The Python float factors 0.95, 1.02 and 2.0 are the rationals 95/100,
102/100 and 2. -/
def check (idx : ℕ) (closes highs volumes : List ℚ)
    (ma60 ma120 high_20 macd_line signal_line avg_volume : List (Option ℚ)) : Bool × ℕ :=
  if idx < 120 then (false, 0)
  else if closes.length ≤ idx ∨ highs.length ≤ idx ∨ volumes.length ≤ idx ∨
      ma60.length ≤ idx ∨ ma120.length ≤ idx ∨ high_20.length ≤ idx ∨
      macd_line.length ≤ idx ∨ signal_line.length ≤ idx ∨ avg_volume.length ≤ idx then
    (false, 0)
  else
    match ma60[idx]?, ma120[idx]?, macd_line[idx]?, signal_line[idx]?, avg_volume[idx]? with
    | some (some m60), some (some m120), some (some mc), some (some sg), some (some av) =>
      if idx = 0 then (false, 0)
      else
        match high_20[idx - 1]? with
        | some (some h20) =>
          match closes[idx]?, volumes[idx]? with
          | some c, some v =>
            if m60 ≤ m120 ∨ c ≤ m60 then (false, 0)
            else if c < h20 * (95/100) ∨ h20 * (102/100) < c then (false, 1)
            else if av = 0 ∨ v < av * 2 then (false, 2)
            else if mc ≤ sg then (false, 3)
            else (true, 4)
          | _, _ => (false, 0)
        | _ => (false, 0)
    | _, _, _, _, _ => (false, 0)

/-- The verdict of the staged check at a candidate index, with every
indicator series computed from the full bar series exactly as
`find_momentum_trend_stocks` (lines 214-265) does before its scan loop. -/
def verdict (ts : List Bar) (idx : ℕ) : Bool × ℕ :=
  let closes := ts.map Bar.close
  let highs := ts.map Bar.high
  let volumes := ts.map Bar.volume
  let ma60 := Ind.calculate_ma closes 60
  let ma120 := Ind.calculate_ma closes 120
  let high_20 := Ind.find_highest highs 20
  let md := Ind.calculate_macd closes 12 26 9
  let avg_volume := Ind.calculate_ma volumes 20
  check idx closes highs volumes ma60 ma120 high_20 md.1 md.2 avg_volume

end MomentumTrend

namespace AlignMomentum

/-- `StockScreener._check_strategy_conditions` of align_momentum.py (lines
519-576): index-range guard, None guard (including the previous bar's
Stochastic values), then the six staged conditions (MA alignment, volume
trend, Stochastic golden cross below 80, ADX > 25, MACD above Signal,
RSI within 30-70). -/
def check (idx : ℕ) (closes : List ℚ)
    (ma5 ma20 ma60 ma120 vol_ma5 vol_ma20 stoch_k stoch_d adx macd_line signal_line rsi_line :
      List (Option ℚ)) : Bool × ℕ :=
  if idx < 120 then (false, 0)
  else if closes.length ≤ idx ∨ ma5.length ≤ idx ∨ ma20.length ≤ idx ∨
      ma60.length ≤ idx ∨ ma120.length ≤ idx ∨ stoch_k.length ≤ idx ∨
      stoch_d.length ≤ idx ∨ adx.length ≤ idx ∨ macd_line.length ≤ idx ∨
      signal_line.length ≤ idx ∨ rsi_line.length ≤ idx then (false, 0)
  else
    match ma5[idx]?, ma20[idx]?, ma60[idx]?, ma120[idx]?, stoch_k[idx]?, stoch_d[idx]?,
        adx[idx]?, macd_line[idx]?, signal_line[idx]?, rsi_line[idx]? with
    | some (some m5), some (some m20), some (some m60), some (some m120), some (some sk),
        some (some sd), some (some ax), some (some mc), some (some sg), some (some rl) =>
      if idx = 0 then (false, 0)
      else
        match stoch_k[idx - 1]?, stoch_d[idx - 1]? with
        | some (some skp), some (some sdp) =>
          if ¬ (m20 < m5 ∧ m60 < m20 ∧ m120 < m60) then (false, 0)
          else
            match vol_ma5[idx]?, vol_ma20[idx]? with
            | some (some v5), some (some v20) =>
              if v5 ≤ v20 then (false, 1)
              else if 80 < sk ∨ 80 < sd then (false, 2)
              else if ¬ (skp ≤ sdp ∧ sd < sk) then (false, 2)
              else if ax ≤ 25 then (false, 3)
              else if mc ≤ sg then (false, 4)
              else if rl < 30 ∨ 70 < rl then (false, 5)
              else (true, 6)
            | _, _ => (false, 1)
        | _, _ => (false, 0)
    | _, _, _, _, _, _, _, _, _, _ => (false, 0)

/-- The verdict of align_momentum's staged check at a candidate index, with
every indicator computed from the full bar series exactly as
`find_align_momentum_stocks` (lines 377-424) does.  (align_momentum's
`calculate_macd` is momentum_trend's plus a histogram the caller discards,
so the shared `Ind.calculate_macd` is used.) -/
def verdict (ts : List Bar) (idx : ℕ) : Bool × ℕ :=
  let closes := ts.map Bar.close
  let highs := ts.map Bar.high
  let volumes := ts.map Bar.volume
  let lows := ts.map Bar.low
  let _ := lows
  let ma5 := calculate_ma (closes.map some) 5
  let ma20 := calculate_ma (closes.map some) 20
  let ma60 := calculate_ma (closes.map some) 60
  let ma120 := calculate_ma (closes.map some) 120
  let vol_ma5 := calculate_ma (volumes.map some) 5
  let vol_ma20 := calculate_ma (volumes.map some) 20
  let stoch := calculate_stochastic highs lows closes 14 3
  let adx := calculate_adx highs lows closes 14
  let md := Ind.calculate_macd closes 12 26 9
  let rsi := calculate_rsi closes 14 9
  check idx closes ma5 ma20 ma60 ma120 vol_ma5 vol_ma20 stoch.1 stoch.2 adx md.1 md.2 rsi.1

end AlignMomentum

/-- The per-instrument scan-and-emit loop shared by every screener: evaluate
candidate indices in scan order; the first index for which the body yields a
record appends it and breaks (`selected_stocks.append(...)` then `break`);
any other outcome continues the scan. -/
def scanLoop {ρ : Type} (f : ℕ → Option ρ) : List ℕ → List ρ
  | [] => []
  | i :: rest =>
    match f i with
    | some r => [r]
    | none => scanLoop f rest

namespace MomentumTrend

/-- The per-instrument portion of `find_momentum_trend_stocks` (lines
212-327): instruments with fewer than 150 bars are skipped; otherwise the
scan runs forward over `[search_start, search_end)` and emits (at most) the
first index whose staged check passes.  Records are represented by their
signal index, from which the emitted record is assembled. -/
def scan (ts : List Bar) (search_start search_end : ℕ) : List ℕ :=
  if ts.length < 150 then []
  else
    scanLoop (fun i => if (verdict ts i).1 then some i else none)
      (List.range' search_start (search_end - search_start))

end MomentumTrend

namespace BollingerVolume

/-- Fuel-bounded integer square root (the classic divide-by-4 recursion;
fuel 64 is exact for every natural below 4^64). -/
def isqrtFuel : ℕ → ℕ → ℕ
  | 0, _ => 0
  | fuel + 1, n =>
    if n < 2 then n
    else
      let r := 2 * isqrtFuel fuel (n / 4)
      if (r + 1) * (r + 1) ≤ n then r + 1 else r

/-- Rational square root used to embed Python's float `variance ** 0.5` in
bollinger_volume's `calculate_std`: exact (and agreeing with the float
computation) whenever the reduced numerator and denominator of the variance
are perfect squares; 0 otherwise.  Every standard deviation whose numeric
value a theorem below depends on is either of the exact kind or occurs only
in a comparison whose outcome is the same for every nonnegative value of
the root. -/
def ratSqrt (q : ℚ) : ℚ :=
  let a := isqrtFuel 64 q.num.toNat
  let b := isqrtFuel 64 q.den
  if a * a = q.num.toNat ∧ b * b = q.den then (a : ℚ) / b else 0

/-- `TechnicalIndicators.calculate_std` of bollinger_volume.py (lines 42-55):
population standard deviation of the trailing window. -/
def calculate_std (data : List ℚ) (period : ℕ) : List (Option ℚ) :=
  if data.length < period then List.replicate data.length none
  else
    (List.range data.length).map (fun i =>
      if i + 1 < period then none
      else
        let w := window data period i
        let mean := w.sum / period
        some (ratSqrt ((w.map (fun x => (x - mean) * (x - mean))).sum / period)))

/-- `TechnicalIndicators.calculate_bollinger_bands` of bollinger_volume.py
(lines 57-73): (middle, upper, lower) = (SMA, SMA + k·σ, SMA − k·σ), None
where either input is None. -/
def calculate_bollinger_bands (data : List ℚ) (period : ℕ) (num_std : ℚ) :
    List (Option ℚ) × List (Option ℚ) × List (Option ℚ) :=
  let ma := Ind.calculate_ma data period
  let std := calculate_std data period
  let upper := List.zipWith (fun m s =>
    match m, s with
    | some m, some s => some (m + num_std * s)
    | _, _ => none) ma std
  let lower := List.zipWith (fun m s =>
    match m, s with
    | some m, some s => some (m - num_std * s)
    | _, _ => none) ma std
  (ma, upper, lower)

/-- Stage 2 of bollinger_volume's checker (lines 435-443): some bar within
the last 3 days has its low at or below the lower band. -/
def bbTouched (idx : ℕ) (lows : List ℚ) (bb_lower : List (Option ℚ)) : Bool :=
  (List.range' (idx - 3) (idx + 1 - (idx - 3))).any (fun j =>
    match bb_lower[j]?, lows[j]? with
    | some (some bl), some l => decide (l ≤ bl)
    | _, _ => false)

/-- Stage 5 of bollinger_volume's checker (lines 456-474): the minimum
defined RSI over the last 10 bars is at most 40 and the current RSI has
recovered by at least 5 from it. -/
def rsiRecovery (idx : ℕ) (rsi_line : List (Option ℚ)) : Bool :=
  let vals := (List.range' (idx - 10) (idx + 1 - (idx - 10))).filterMap (fun j =>
    match rsi_line[j]? with
    | some (some r) => some r
    | _ => none)
  match vals.min?, rsi_line[idx]? with
  | some m, some (some cur) => decide (m ≤ 40 ∧ m + 5 ≤ cur)
  | _, _ => false

/-- Stage 6 of bollinger_volume's checker (lines 477-491): a MACD golden
cross with positive histogram occurred within the last 10 bars. -/
def macdGC (idx : ℕ) (macd_line signal_line : List (Option ℚ)) : Bool :=
  (List.range' (max 1 (idx - 10)) (idx + 1 - max 1 (idx - 10))).any (fun j =>
    match macd_line[j]?, signal_line[j]?, macd_line[j - 1]?, signal_line[j - 1]? with
    | some (some mj), some (some sj), some (some mp), some (some sp) =>
      decide (mp ≤ sp ∧ sj < mj ∧ 0 < mj - sj)
    | _, _, _, _ => false)

/-- `StockScreener._check_strategy_conditions` of bollinger_volume.py (lines
408-493): index-range guard, None guard, then the six staged conditions
(trend filter, lower-band touch within 3 days, close above the middle band,
volume at least 1.5 times average, RSI recovery, MACD golden cross). -/
def check (idx : ℕ) (closes volumes lows : List ℚ)
    (bb_middle bb_upper bb_lower macd_line signal_line rsi_line avg_volume ma60 ma120 :
      List (Option ℚ)) : Bool × ℕ :=
  if idx < 120 then (false, 0)
  else if rsi_line.length ≤ idx ∨ avg_volume.length ≤ idx ∨ bb_middle.length ≤ idx ∨
      bb_lower.length ≤ idx ∨ bb_upper.length ≤ idx ∨ macd_line.length ≤ idx ∨
      signal_line.length ≤ idx ∨ ma60.length ≤ idx ∨ ma120.length ≤ idx then (false, 0)
  else
    match bb_middle[idx]?, bb_upper[idx]?, bb_lower[idx]?, macd_line[idx]?, signal_line[idx]?,
        rsi_line[idx]?, avg_volume[idx]?, ma60[idx]?, ma120[idx]? with
    | some (some mid), some (some _u), some (some _l), some (some _mc), some (some _sg),
        some (some _rl), some (some av), some (some m60), some (some m120) =>
      match closes[idx]?, volumes[idx]? with
      | some c, some v =>
        if m60 ≤ m120 ∨ c ≤ m60 then (false, 0)
        else if ¬ bbTouched idx lows bb_lower then (false, 1)
        else if c ≤ mid then (false, 2)
        else if av = 0 ∨ v < av * (3/2) then (false, 3)
        else if ¬ rsiRecovery idx rsi_line then (false, 4)
        else if ¬ macdGC idx macd_line signal_line then (false, 5)
        else (true, 6)
      | _, _ => (false, 0)
    | _, _, _, _, _, _, _, _, _ => (false, 0)

/-- The verdict of bollinger_volume's staged check at a candidate index,
with every indicator computed from the full bar series exactly as
`find_bollinger_volume_stocks` (lines 264-311) does. -/
def verdict (ts : List Bar) (idx : ℕ) : Bool × ℕ :=
  let closes := ts.map Bar.close
  let volumes := ts.map Bar.volume
  let lows := ts.map Bar.low
  let bb := calculate_bollinger_bands closes 20 2
  let md := Ind.calculate_macd closes 12 26 9
  let rsi_line := Ind.calculate_rsi closes 14
  let avg_volume := Ind.calculate_ma volumes 20
  let ma60 := Ind.calculate_ma closes 60
  let ma120 := Ind.calculate_ma closes 120
  check idx closes volumes lows bb.1 bb.2.1 bb.2.2 md.1 md.2 rsi_line avg_volume ma60 ma120

/-- `StockScreener._find_bb_lower_touch` of bollinger_volume.py (lines
495-500): the first bar within the last 3 days whose *close* is at or below
1.01 times the lower band, if any. -/
def find_bb_lower_touch (current_idx : ℕ) (closes : List ℚ) (bb_lower : List (Option ℚ)) :
    Option ℕ :=
  (List.range' (current_idx - 3) (current_idx + 1 - (current_idx - 3))).find? (fun j =>
    match bb_lower[j]?, closes[j]? with
    | some (some bl), some c => decide (c ≤ bl * (101/100))
    | _, _ => false)

/-- The body of the backward scan loop of `find_bollinger_volume_stocks`
(lines 307-373): on a passing index, look up the close-based lower-band
touch; without one, `continue` (no record); with one, append the record
(represented by its signal index) and break. -/
def emit (ts : List Bar) (idx : ℕ) : Option ℕ :=
  if (verdict ts idx).1 then
    match find_bb_lower_touch idx (ts.map Bar.close)
        (calculate_bollinger_bands (ts.map Bar.close) 20 2).2.2 with
    | some _ => some idx
    | none => none
  else none

/-- The per-instrument portion of `find_bollinger_volume_stocks` (lines
257-373): instruments with fewer than 150 bars are skipped; otherwise the
scan runs backward from `search_end - 1` down to `search_start`. -/
def scan (ts : List Bar) (search_start search_end : ℕ) : List ℕ :=
  if ts.length < 150 then []
  else scanLoop (emit ts) ((List.range' search_start (search_end - search_start)).reverse)

end BollingerVolume

/-- Tail closes of the C5 counterexample series: a sharp decline followed by
a partial recovery, shaping the RSI-recovery stage. -/
def c5Tail : List ℚ := [1000, 900, 800, 700, 600, 500, 450, 420, 460, 500, 540, 580, 620]

/-- The C5 counterexample series (160 bars): 146 alternating closes
990/1010 (so every earlier candidate fails the trend filter and every
relevant 20-bar window has standard deviation exactly 10), one spike bar at
index 146 whose low at index 143 touches the lower band, then the
RSI-shaping tail.  At index 146 all six stages pass via the low-based touch
at 143, but no close comes within 1.01 of the lower band, so the close-based
touch lookup fails. -/
def c5Ts : List Bar :=
  ((List.range 146).map (fun j =>
    let c : ℚ := if j % 2 = 1 then 1010 else 990
    (⟨c, c + 1, if j = 143 then 900 else c - 1, c, 100⟩ : Bar))) ++
  [⟨1300, 1301, 1299, 1300, 300⟩] ++
  c5Tail.map (fun c => ⟨c, c + 1, c - 1, c, 100⟩)

/-- The C10 counterexample base series: 170 bars with strictly increasing
closes and constant volume. -/
def c10B : List Bar :=
  (List.range 170).map (fun j =>
    ⟨1000 + j, 1001 + j, 999 + j, 1000 + j, 100⟩)

/-- The C10 counterexample truncated series: the same first 150 bars. -/
def c10A : List Bar := c10B.take 150

/-- Sum of the realized position fractions of a trace. -/
def fracSum (evs : List Ev) : ℚ := (evs.map Ev.frac).sum

/-- Position-fraction-weighted sum of the percentage returns of the
realizations relative to the entry price. -/
def wSum (entry : ℚ) (evs : List Ev) : ℚ :=
  (evs.map (fun e => e.frac * pct entry e.price)).sum

/-- Loop invariant of the simulation: the open fraction plus the realized
fractions is 1, the accumulated profit is the weighted sum of the trace, and
the open fraction is 1, 1/2 or 0. -/
def SimInv (entry : ℚ) (st : St) : Prop :=
  st.remaining + fracSum st.events = 1 ∧
  st.total_profit = wSum entry st.events ∧
  (st.remaining = 1 ∨ st.remaining = 1/2 ∨ st.remaining = 0)

lemma fracSum_append (evs : List Ev) (e : Ev) :
    fracSum (evs ++ [e]) = fracSum evs + e.frac := by
  simp [fracSum]

lemma wSum_append (entry : ℚ) (evs : List Ev) (e : Ev) :
    wSum entry (evs ++ [e]) = wSum entry evs + e.frac * pct entry e.price := by
  simp [wSum]

lemma stepTiered_inv (entry stop tp1 tp2 : ℚ) (st : St) (b : Bar)
    (h : SimInv entry st) : SimInv entry (stepTiered entry stop tp1 tp2 st b).1 := by
  obtain ⟨h1, h2, h3⟩ := h
  by_cases hstop : b.low ≤ stop
  · simp only [stepTiered, if_pos hstop]
    refine ⟨?_, ?_, by simp⟩
    · show 0 + fracSum (st.events ++ [⟨st.remaining, stop, .stop_loss⟩]) = 1
      rw [fracSum_append]; dsimp only; linarith
    · show st.total_profit + st.remaining * pct entry stop = _
      rw [wSum_append]; dsimp only; rw [h2]
  · by_cases htp1 : st.remaining = 1 ∧ tp1 ≤ b.high
    · by_cases htp2 : tp2 ≤ b.high
      · simp only [stepTiered, if_neg hstop, if_pos htp1]
        rw [if_pos (by exact ⟨by simp, htp2⟩)]
        refine ⟨?_, ?_, by simp⟩
        · show 0 + fracSum ((st.events ++ [⟨1/2, tp1, .take_profit_1⟩]) ++
            [⟨1/2, tp2, .take_profit_2⟩]) = 1
          rw [fracSum_append, fracSum_append]; dsimp only
          rw [htp1.1] at h1; linarith
        · show st.total_profit + 1/2 * pct entry tp1 + 1/2 * pct entry tp2 = _
          rw [wSum_append, wSum_append]; dsimp only; rw [h2]
      · simp only [stepTiered, if_neg hstop, if_pos htp1]
        rw [if_neg (by simp [htp2])]
        refine ⟨?_, ?_, by simp⟩
        · show 1/2 + fracSum (st.events ++ [⟨1/2, tp1, .take_profit_1⟩]) = 1
          rw [fracSum_append]; dsimp only
          rw [htp1.1] at h1; linarith
        · show st.total_profit + 1/2 * pct entry tp1 = _
          rw [wSum_append]; dsimp only; rw [h2]
    · by_cases htp2 : st.remaining = 1/2 ∧ tp2 ≤ b.high
      · simp only [stepTiered, if_neg hstop, if_neg htp1, if_pos htp2]
        refine ⟨?_, ?_, by simp⟩
        · show 0 + fracSum (st.events ++ [⟨1/2, tp2, .take_profit_2⟩]) = 1
          rw [fracSum_append]; dsimp only
          rw [htp2.1] at h1; linarith
        · show st.total_profit + 1/2 * pct entry tp2 = _
          rw [wSum_append]; dsimp only; rw [h2]
      · simp only [stepTiered, if_neg hstop, if_neg htp1, if_neg htp2]
        exact ⟨h1, h2, h3⟩

lemma stepSingle_inv (entry stop tp2 : ℚ) (st : St) (b : Bar)
    (h : SimInv entry st) : SimInv entry (stepSingle entry stop tp2 st b).1 := by
  obtain ⟨h1, h2, h3⟩ := h
  by_cases hstop : b.low ≤ stop
  · simp only [stepSingle, if_pos hstop]
    refine ⟨?_, ?_, by simp⟩
    · show 0 + fracSum (st.events ++ [⟨st.remaining, stop, .stop_loss⟩]) = 1
      rw [fracSum_append]; dsimp only; linarith
    · show st.total_profit + st.remaining * pct entry stop = _
      rw [wSum_append]; dsimp only; rw [h2]
  · by_cases htp2 : st.remaining = 1 ∧ tp2 ≤ b.high
    · simp only [stepSingle, if_neg hstop, if_pos htp2]
      refine ⟨?_, ?_, by simp⟩
      · show 0 + fracSum (st.events ++ [⟨1, tp2, .take_profit_2⟩]) = 1
        rw [fracSum_append]; dsimp only
        rw [htp2.1] at h1; linarith
      · show st.total_profit + 1 * pct entry tp2 = _
        rw [wSum_append]; dsimp only; rw [h2]
    · simp only [stepSingle, if_neg hstop, if_neg htp2]
      exact ⟨h1, h2, h3⟩

lemma runLoop_inv {entry : ℚ} (step : St → Bar → St × Bool)
    (hstep : ∀ st b, SimInv entry st → SimInv entry (step st b).1)
    (bars : List Bar) (st : St) (h : SimInv entry st) :
    SimInv entry (runLoop step bars st) := by
  induction bars generalizing st with
  | nil => exact h
  | cons b bs ih =>
    unfold runLoop
    have h2 := hstep st b h
    rcases hb : step st b with ⟨st2, brk⟩
    rw [hb] at h2
    cases brk
    · exact ih st2 h2
    · exact h2

lemma closeout_sums (entry lastClose : ℚ) (st : St) (h : SimInv entry st) :
    fracSum (closeout entry lastClose st).events = 1 ∧
    (closeout entry lastClose st).total_profit =
      wSum entry (closeout entry lastClose st).events := by
  obtain ⟨h1, h2, h3⟩ := h
  unfold closeout
  split
  · constructor
    · simp only [fracSum_append]; linarith
    · simp [wSum_append, h2]
  · rename_i hneg
    have hz : st.remaining = 0 := by
      rcases h3 with h | h | h
      · exact absurd (h ▸ (by norm_num : (0:ℚ) < 1)) hneg
      · exact absurd (h ▸ (by norm_num : (0:ℚ) < 1/2)) hneg
      · exact h
    constructor
    · rw [hz] at h1; linarith
    · exact h2

/-- C1: in every completed run of the tiered position simulator of
`momentum_trend.backtest_stocks` / `align_momentum.backtest_stocks` (either
take-profit mode), the realized position fractions over all exit events —
stop-loss, tier 1, tier 2 and the end-of-data close-out — sum to exactly 1,
and the total realized return is the position-fraction-weighted sum of the
realizations' percentage returns relative to the entry price. -/
theorem c1_fractions_sum_one_and_weighted_profit
    (single : Bool) (ts : List Bar) (signal_idx : ℕ) (stop tp1 tp2 : ℚ)
    (r : BtResult) (h : simulate single ts signal_idx stop tp1 tp2 = some r) :
    fracSum r.events = 1 ∧ r.profit = wSum r.entry r.events := by
  unfold simulate at h
  rcases hget : ts[signal_idx + 1]? with _ | entryBar <;> rw [hget] at h <;> dsimp only at h
  · exact absurd h (by simp)
  · by_cases hz : entryBar.«open» = 0
    · rw [if_pos hz] at h; exact absurd h (by simp)
    · rw [if_neg hz] at h
      simp only [Option.some.injEq] at h
      set entry := entryBar.«open» with hentry
      set bars := ts.drop (signal_idx + 1) with hbars
      set stepF := if single then stepSingle entry stop tp2
                   else stepTiered entry stop tp1 tp2 with hstep
      have hstepInv : ∀ st b, SimInv entry st → SimInv entry (stepF st b).1 := by
        intro st b hi
        rw [hstep]
        cases single
        · simpa using stepTiered_inv entry stop tp1 tp2 st b hi
        · simpa using stepSingle_inv entry stop tp2 st b hi
      have hinit : SimInv entry ⟨1, 0, none, []⟩ := by
        refine ⟨by simp [fracSum], by simp [wSum], by simp⟩
      have hrun := runLoop_inv stepF hstepInv bars ⟨1, 0, none, []⟩ hinit
      have hfin := closeout_sums entry (((bars.getLast?).getD entryBar).close) _ hrun
      rw [← h]
      exact ⟨hfin.1, hfin.2⟩

/-- Witness for C1 at a concrete two-bar run that ends in a full close-out. -/
theorem c1_witness : fracSum c1Res.events = 1 ∧ c1Res.profit = wSum c1Res.entry c1Res.events :=
  c1_fractions_sum_one_and_weighted_profit false c1Ts 0 920 1130 1210 c1Res (by decide)

/-- C2: on any bar scanned while the position is still open, if the bar's low
is at or below the stop-loss price then the whole remaining position is
realized at the stop-loss price, the exit is classified `stop_loss`, and the
loop breaks — no further bar is scanned and no take-profit event is produced
on that bar, no matter how high the bar's high is.  This holds in both
take-profit modes of `momentum_trend.backtest_stocks` and in
`align_momentum.backtest_stocks`. -/
theorem c2_stop_loss_dominates (entry stop tp1 tp2 : ℚ) (st : St) (b : Bar)
    (rest : List Bar) (h : b.low ≤ stop) :
    runLoop (stepTiered entry stop tp1 tp2) (b :: rest) st =
      ⟨0, st.total_profit + st.remaining * pct entry stop, some .stop_loss,
       st.events ++ [⟨st.remaining, stop, .stop_loss⟩]⟩ ∧
    runLoop (stepSingle entry stop tp2) (b :: rest) st =
      ⟨0, st.total_profit + st.remaining * pct entry stop, some .stop_loss,
       st.events ++ [⟨st.remaining, stop, .stop_loss⟩]⟩ := by
  constructor
  · unfold runLoop stepTiered
    rw [if_pos h]
  · unfold runLoop stepSingle
    rw [if_pos h]

/-- Witness for C2: a bar whose low breaches the stop and whose high also
reaches both take-profit tiers still exits as a full stop-loss. -/
theorem c2_witness :
    runLoop (stepTiered 1000 920 1130 1210) [⟨1000, 1300, 900, 1200, 100⟩]
      ⟨1, 0, none, []⟩ = ⟨0, 1 * pct 1000 920, some .stop_loss, [⟨1, 920, .stop_loss⟩]⟩ := by
  have h := (c2_stop_loss_dominates 1000 920 1130 1210 ⟨1, 0, none, []⟩
    ⟨1000, 1300, 900, 1200, 100⟩ [] (by decide)).1
  simpa using h

/-- C3 counterexample: `BNFBacktester.simulate_trading` realizes 20% of the
position at tier 1 (`position -= 0.2`), not 50%.  On the claim's price path
(entry 1000, stop 920, tier 1 = 1130 and tier 2 = 1210 hit on separate bars)
it realizes 130·(1/5) + 210·(4/5) = 194 per unit, a 19.4% return — not the
claimed 0.5·13% + 0.5·21% = 17.0%. -/
theorem c3_bnf_tier1_fifth_cx :
    BnfBackTest.simulate_trading 1000 920 (some 1130) (some 1210)
      [⟨1050, 1130, 1000, 1100, 0⟩, ⟨1100, 1210, 1100, 1200, 0⟩] = some (194, 97/5) ∧
    ¬ ((97 : ℚ)/5 = 17) := by
  exact ⟨by decide, by decide⟩

/-- C3 (amended): in the two-tier simulators of `momentum_trend` and
`align_momentum`, on a bar where the position is full, the low stays above
the stop and the high reaches tier 1, exactly 50% is realized at the tier-1
price, the position becomes half, and tier 2 is still checked on that same
bar; the scenario path (entry 1000, stop 920, tiers 1130/1210 on separate
bars) realizes exactly 0.5·13% + 0.5·21% = 17.0%.
`BNFBacktester.simulate_trading` instead realizes 20% at tier 1 and the
remaining 80% at tier 2 (19.4% on that path). -/
theorem c3_tier1_half_then_tier2_same_bar :
    (∀ (entry stop tp1 tp2 : ℚ) (st : St) (b : Bar),
      ¬ b.low ≤ stop → st.remaining = 1 → tp1 ≤ b.high →
      stepTiered entry stop tp1 tp2 st b =
        if tp2 ≤ b.high then
          (⟨0, st.total_profit + 1/2 * pct entry tp1 + 1/2 * pct entry tp2,
            some .take_profit_2,
            st.events ++ [⟨1/2, tp1, .take_profit_1⟩] ++ [⟨1/2, tp2, .take_profit_2⟩]⟩, true)
        else
          (⟨1/2, st.total_profit + 1/2 * pct entry tp1, st.exit_reason,
            st.events ++ [⟨1/2, tp1, .take_profit_1⟩]⟩, false)) ∧
    simulate false c3Ts 0 920 1130 1210 =
      some ⟨1000, 17, some .take_profit_2,
        [⟨1/2, 1130, .take_profit_1⟩, ⟨1/2, 1210, .take_profit_2⟩]⟩ := by
  constructor
  · intro entry stop tp1 tp2 st b hstop hfull htp1
    by_cases htp2 : tp2 ≤ b.high
    · rw [if_pos htp2]
      simp only [stepTiered, if_neg hstop, if_pos (And.intro hfull htp1)]
      rw [if_pos (by exact ⟨by simp, htp2⟩)]
    · rw [if_neg htp2]
      simp only [stepTiered, if_neg hstop, if_pos (And.intro hfull htp1)]
      rw [if_neg (by simp [htp2])]
  · decide

/-- Witness for the universal part of the amended C3 at a concrete full-position
state and a bar that reaches tier 1 but not tier 2. -/
theorem c3_witness :
    stepTiered 1000 920 1130 1210 ⟨1, 0, none, []⟩ ⟨1000, 1150, 950, 1100, 100⟩ =
      if (1210 : ℚ) ≤ 1150 then
        (⟨0, 0 + 1/2 * pct 1000 1130 + 1/2 * pct 1000 1210, some .take_profit_2,
          [] ++ [⟨1/2, 1130, .take_profit_1⟩] ++ [⟨1/2, 1210, .take_profit_2⟩]⟩, true)
      else
        (⟨1/2, 0 + 1/2 * pct 1000 1130, none,
          [] ++ [⟨1/2, 1130, .take_profit_1⟩]⟩, false) :=
  c3_tier1_half_then_tier2_same_bar.1 1000 920 1130 1210 ⟨1, 0, none, []⟩
    ⟨1000, 1150, 950, 1100, 100⟩ (by decide) rfl (by decide)

/-- C4 counterexample: `BNFBacktester.simulate_trading` does not enter at the
open of the bar after the signal; it uses the signal record's stored price.
With record price 1000 and a single following bar whose open is 2000 and
close is 1500 (no threshold hit), it reports +50% — the return relative to
1000 — where entering at the 2000 open would give −25%. -/
theorem c4_bnf_entry_cx :
    BnfBackTest.simulate_trading 1000 920 (some 3000) (some 4000)
      [⟨2000, 2000, 1500, 1500, 0⟩] = some (500, 50) ∧
    ((1500 : ℚ) - 2000) / 2000 * 100 = -25 ∧ ¬ ((50 : ℚ) = -25) := by
  exact ⟨by decide, by decide, by decide⟩

/-- C4 (amended): in the screener backtests (`momentum_trend.backtest_stocks`
and `align_momentum.backtest_stocks`) the simulation entry price is the open
of the bar immediately after the signal bar; the instrument is skipped, with
no result produced, when there is no bar after the signal bar or when that
open is zero.  (`BNFBacktester.simulate_trading` instead uses the signal
record's stored price as entry and skips only when no price data exists.) -/
theorem c4_entry_next_open_or_skip (single : Bool) (ts : List Bar) (idx : ℕ)
    (stop tp1 tp2 : ℚ) :
    (ts[idx + 1]? = none → simulate single ts idx stop tp1 tp2 = none) ∧
    (∀ b, ts[idx + 1]? = some b → b.«open» = 0 →
      simulate single ts idx stop tp1 tp2 = none) ∧
    (∀ b, ts[idx + 1]? = some b → b.«open» ≠ 0 →
      ∃ r, simulate single ts idx stop tp1 tp2 = some r ∧ r.entry = b.«open») := by
  refine ⟨?_, ?_, ?_⟩
  · intro hnone
    unfold simulate
    rw [hnone]
  · intro b hsome hz
    unfold simulate
    rw [hsome]
    dsimp only
    rw [if_pos hz]
  · intro b hsome hz
    unfold simulate
    rw [hsome]
    dsimp only
    rw [if_neg hz]
    exact ⟨_, rfl, rfl⟩

/-- Witness for the amended C4: on a concrete series with a nonzero next-bar
open, a result is produced and its entry price is that open. -/
theorem c4_witness :
    ∃ r, simulate false c1Ts 0 920 1130 1210 = some r ∧ r.entry = (1000 : ℚ) :=
  (c4_entry_next_open_or_skip false c1Ts 0 920 1130 1210).2.2
    ⟨1000, 1000, 950, 1000, 100⟩ (by decide) (by decide)

lemma filterMap_id_length_lt {α : Type} (l : List (Option α)) (h : none ∈ l) :
    (l.filterMap id).length < l.length := by
  induction l with
  | nil => simp at h
  | cons o rest ih =>
    cases o with
    | none =>
      have hlen := List.length_filterMap_le id rest
      have heq : List.filterMap id (none :: rest) = List.filterMap id rest := by simp
      rw [heq]
      simp only [List.length_cons]
      omega
    | some a =>
      have hmem : none ∈ rest := by simpa using h
      have hlt := ih hmem
      have heq : List.filterMap id (some a :: rest) = a :: List.filterMap id rest := by simp
      rw [heq]
      simp only [List.length_cons]
      omega

lemma filterMap_id_of_no_none {α : Type} (l : List (Option α)) (h : none ∉ l) :
    (l.filterMap id).length = l.length ∧ l = (l.filterMap id).map some := by
  induction l with
  | nil => simp
  | cons o rest ih =>
    cases o with
    | none => exact absurd (List.mem_cons_self none rest) h
    | some a =>
      have hmem : none ∉ rest := fun hc => h (List.mem_cons_of_mem _ hc)
      obtain ⟨h1, h2⟩ := ih hmem
      refine ⟨by simp [h1], ?_⟩
      simpa using h2

lemma window_length {α : Type} (data : List α) (period i : ℕ)
    (hge : period ≤ i + 1) (hi : i < data.length) :
    (window data period i).length = period := by
  simp only [window, List.length_take, List.length_drop]
  omega

/-- C6: for every input sequence and period, align_momentum's simple moving
average preserves the input length; the output is undefined exactly at the
indices below `period - 1` and at the indices whose trailing window contains
an undefined sample, and otherwise equals the arithmetic mean of the window;
and on a 130-bar constant-100 series with period 120, SMA120 is 100 at index
119 and undefined at index 118. -/
theorem c6_sma_characterization (data : List (Option ℚ)) (period : ℕ)
    (hp : 1 ≤ period) :
    (AlignMomentum.calculate_ma data period).length = data.length ∧
    (∀ i, i < data.length →
      (((AlignMomentum.calculate_ma data period)[i]? = some none) ↔
        (i + 1 < period ∨ none ∈ window data period i)) ∧
      (∀ v, (AlignMomentum.calculate_ma data period)[i]? = some (some v) →
        ∃ ws : List ℚ, window data period i = ws.map some ∧ ws.length = period ∧
          v = ws.sum / period)) ∧
    ((AlignMomentum.calculate_ma (List.replicate 130 (some (100:ℚ))) 120)[119]? =
        some (some 100) ∧
     (AlignMomentum.calculate_ma (List.replicate 130 (some (100:ℚ))) 120)[118]? =
        some none) := by
  refine ⟨?_, ?_, by decide, by decide⟩
  · unfold AlignMomentum.calculate_ma
    split <;> simp
  · intro i hi
    by_cases hlen : data.length < period
    · have helem : (AlignMomentum.calculate_ma data period)[i]? = some none := by
        unfold AlignMomentum.calculate_ma
        rw [if_pos hlen]
        simp [List.getElem?_replicate, hi]
      have hip : i + 1 < period := by omega
      refine ⟨by simp [helem, hip], ?_⟩
      intro v hv
      rw [helem] at hv
      simp at hv
    · have helem : (AlignMomentum.calculate_ma data period)[i]? =
          some (if i + 1 < period then none
            else
              let valid := (window data period i).filterMap id
              if valid.length = period then some (valid.sum / period) else none) := by
        unfold AlignMomentum.calculate_ma
        rw [if_neg hlen]
        simp [List.getElem?_map, List.getElem?_range, hi]
      by_cases hip : i + 1 < period
      · rw [if_pos hip] at helem
        refine ⟨by simp [helem, hip], ?_⟩
        intro v hv
        rw [helem] at hv
        simp at hv
      · rw [if_neg hip] at helem
        have hw : (window data period i).length = period :=
          window_length data period i (by omega) hi
        by_cases hnone : none ∈ window data period i
        · have hlt := filterMap_id_length_lt _ hnone
          rw [hw] at hlt
          have : ¬ ((window data period i).filterMap id).length = period := by omega
          simp only [this, if_false] at helem
          refine ⟨by simp [helem, hnone], ?_⟩
          intro v hv
          rw [helem] at hv
          simp at hv
        · obtain ⟨heq, hws⟩ := filterMap_id_of_no_none _ hnone
          rw [hw] at heq
          simp only [heq, if_true] at helem
          constructor
          · rw [helem]
            simp only [Option.some.injEq]
            constructor
            · intro hc; exact absurd hc (by simp)
            · intro hc
              rcases hc with hc | hc
              · exact absurd hc hip
              · exact absurd hc hnone
          · intro v hv
            rw [helem] at hv
            simp only [Option.some.injEq] at hv
            exact ⟨(window data period i).filterMap id, hws, heq, hv.symm⟩

/-- Witness for C6: the characterization applied to the 130-bar constant
series with period 120 gives the length of the output. -/
theorem c6_witness :
    (AlignMomentum.calculate_ma (List.replicate 130 (some (100:ℚ))) 120).length = 130 := by
  have h := (c6_sma_characterization (List.replicate 130 (some (100:ℚ))) 120 (by decide)).1
  simpa using h

lemma length_emaFrom (m prev : ℚ) (xs : List ℚ) :
    (Ind.emaFrom m prev xs).length = xs.length := by
  induction xs generalizing prev with
  | nil => rfl
  | cons x xs ih => simp [Ind.emaFrom, ih]

lemma length_calculate_ema (data : List ℚ) (period : ℕ) (hp : 1 ≤ period) :
    (Ind.calculate_ema data period).length = data.length := by
  by_cases h : data.length < period
  · unfold Ind.calculate_ema
    rw [if_pos h]
    simp
  · unfold Ind.calculate_ema
    rw [if_neg h]
    dsimp only
    rw [List.length_append, List.length_replicate, List.length_map, List.length_cons,
      length_emaFrom, List.length_drop]
    omega

lemma ema_getElem_of_lt (data : List ℚ) (period i : ℕ) (hlen : period ≤ data.length)
    (hip : i + 1 < period) : (Ind.calculate_ema data period)[i]? = some none := by
  unfold Ind.calculate_ema
  rw [if_neg (by omega)]
  dsimp only
  rw [List.getElem?_append]
  rw [if_pos (by simp; omega)]
  simp only [List.getElem?_replicate]
  rw [if_pos (by omega)]

lemma ema_getElem_of_ge (data : List ℚ) (period i : ℕ) (hp : 1 ≤ period)
    (hlen : period ≤ data.length) (hip : period ≤ i + 1) (hi : i < data.length) :
    ∃ w, (Ind.calculate_ema data period)[i]? = some (some w) := by
  unfold Ind.calculate_ema
  rw [if_neg (by omega)]
  dsimp only
  rw [List.getElem?_append]
  rw [if_neg (by simp; omega)]
  simp only [List.length_replicate]
  rw [List.getElem?_map]
  have hbound : i - (period - 1) <
      ((data.take period).sum / (period : ℚ) ::
        Ind.emaFrom (2 / ((period : ℚ) + 1)) ((data.take period).sum / (period : ℚ))
          (data.drop period)).length := by
    simp [length_emaFrom]
    omega
  rw [List.getElem?_eq_getElem hbound]
  exact ⟨_, rfl⟩

lemma macdElem_of_lt (prices : List ℚ) (i : ℕ) (h35 : 35 ≤ prices.length)
    (hi : i < 25) : MacdRsiSeparation.macdElem prices 12 26 i = none := by
  have hs : (Ind.calculate_ema prices 26)[i]? = some none :=
    ema_getElem_of_lt prices 26 i (by omega) (by omega)
  unfold MacdRsiSeparation.macdElem
  rw [hs]
  rcases hf : (Ind.calculate_ema prices 12)[i]? with _ | f
  · rfl
  · rcases f with _ | f <;> rfl

lemma macdElem_isSome_of_ge (prices : List ℚ) (i : ℕ) (h35 : 35 ≤ prices.length)
    (h25 : 25 ≤ i) (hi : i < prices.length) :
    ∃ w, MacdRsiSeparation.macdElem prices 12 26 i = some w := by
  obtain ⟨f, hf⟩ := ema_getElem_of_ge prices 12 i (by omega) (by omega) (by omega) hi
  obtain ⟨s, hs⟩ := ema_getElem_of_ge prices 26 i (by omega) (by omega) (by omega) hi
  refine ⟨f - s, ?_⟩
  unfold MacdRsiSeparation.macdElem
  rw [hf, hs]

lemma length_macdLine (prices : List ℚ) (fast slow : ℕ) :
    (MacdRsiSeparation.macdLine prices fast slow).length = prices.length := by
  unfold MacdRsiSeparation.macdLine
  simp

lemma macdLine_countP (prices : List ℚ) (h35 : 35 ≤ prices.length) :
    (MacdRsiSeparation.macdLine prices 12 26).countP (fun m => m.isNone) = 25 := by
  unfold MacdRsiSeparation.macdLine
  rw [List.countP_map]
  have hr : List.range prices.length =
      List.range 25 ++ (List.range (prices.length - 25)).map (25 + ·) := by
    rw [← List.range_add]
    congr 1
    omega
  rw [hr, List.countP_append, List.countP_map]
  have h1 : List.countP ((fun m : Option ℚ => m.isNone) ∘ MacdRsiSeparation.macdElem prices 12 26)
      (List.range 25) = 25 := by
    have := List.countP_eq_length
      (p := (fun m : Option ℚ => m.isNone) ∘ MacdRsiSeparation.macdElem prices 12 26)
      (l := List.range 25)
    rw [this.2 ?_, List.length_range]
    intro a ha
    rw [List.mem_range] at ha
    simp [Function.comp, macdElem_of_lt prices a h35 ha]
  have h2 : List.countP (((fun m : Option ℚ => m.isNone) ∘ MacdRsiSeparation.macdElem prices 12 26) ∘
      (25 + ·)) (List.range (prices.length - 25)) = 0 := by
    rw [List.countP_eq_zero]
    intro a ha
    rw [List.mem_range] at ha
    obtain ⟨w, hw⟩ := macdElem_isSome_of_ge prices (25 + a) h35 (by omega) (by omega)
    simp [Function.comp, hw]
  rw [h1, h2]

lemma filterMap_id_length_add_countP {α : Type} (l : List (Option α)) :
    (l.filterMap id).length + l.countP (fun o => o.isNone) = l.length := by
  induction l with
  | nil => rfl
  | cons o rest ih =>
    cases o <;> simp [List.countP_cons, ← ih] <;> omega

/-- C7 counterexample: in `momentum_trend.calculate_macd` (and the identical
`bollinger_volume` version), undefined MACD values are replaced by `0`
before the signal EMA, so the MACD Signal line can be *defined* at an index
where the MACD line itself is undefined: on a 9-sample constant series the
whole MACD line is None, yet the signal line at index 8 is the number 0. -/
theorem c7_signal_defined_where_macd_undefined_cx :
    ((Ind.calculate_macd (List.replicate 9 (100:ℚ)) 12 26 9).1)[8]? = some none ∧
    ((Ind.calculate_macd (List.replicate 9 (100:ℚ)) 12 26 9).2)[8]? = some (some 0) := by
  exact ⟨by decide, by decide⟩

/-- C7 (amended): in `macd_rsi_separation.calculate_macd` undefinedness does
propagate — wherever the Signal line is defined, the MACD line is defined
too; but in `momentum_trend.calculate_macd` / `bollinger_volume.calculate_macd`
the undefined MACD entries are replaced by the numeric stand-in 0 before the
signal EMA, so there the Signal line can be defined where the MACD line is
undefined. -/
theorem c7_macd_rsi_sep_propagates (prices : List ℚ) (i : ℕ) (v : ℚ)
    (h : ((MacdRsiSeparation.calculate_macd prices 12 26 9).2)[i]? = some (some v)) :
    ∃ w, ((MacdRsiSeparation.calculate_macd prices 12 26 9).1)[i]? = some (some w) := by
  by_cases h35 : prices.length < 26 + 9
  · exfalso
    unfold MacdRsiSeparation.calculate_macd at h
    rw [if_pos h35] at h
    dsimp only at h
    by_cases hi : i < prices.length
    · rw [List.getElem?_replicate, if_pos hi] at h
      exact absurd h (by simp)
    · rw [List.getElem?_eq_none (by simp; omega)] at h
      exact absurd h (by simp)
  · have h35' : 35 ≤ prices.length := by omega
    have hcount := macdLine_countP prices h35'
    have hlenml := length_macdLine prices 12 26
    have hvalid : ((MacdRsiSeparation.macdLine prices 12 26).filterMap id).length =
        prices.length - 25 := by
      have hh := filterMap_id_length_add_countP (MacdRsiSeparation.macdLine prices 12 26)
      rw [hcount, hlenml] at hh
      omega
    have hcond2 : ¬ ((MacdRsiSeparation.macdLine prices 12 26).filterMap id).length < 9 := by
      rw [hvalid]; omega
    unfold MacdRsiSeparation.calculate_macd at h ⊢
    rw [if_neg h35] at h ⊢
    dsimp only at h ⊢
    rw [if_neg hcond2] at h ⊢
    dsimp only at h ⊢
    rw [hcount, List.getElem?_append] at h
    by_cases hi25 : i < (List.replicate 25 (none : Option ℚ)).length
    · rw [if_pos hi25] at h
      rw [List.getElem?_replicate, if_pos (by simpa using hi25)] at h
      exact absurd h (by simp)
    · rw [if_neg hi25] at h
      simp only [List.length_replicate] at hi25 h
      have hilen : i < prices.length := by
        by_contra hc
        rw [List.getElem?_eq_none
          (by rw [length_calculate_ema _ 9 (by norm_num), hvalid]; omega)] at h
        exact absurd h (by simp)
      obtain ⟨w, hw⟩ := macdElem_isSome_of_ge prices i h35' (by omega) hilen
      refine ⟨w, ?_⟩
      unfold MacdRsiSeparation.macdLine
      rw [List.getElem?_map]
      rw [List.getElem?_range (by exact hilen)]
      simp [hw]

/-- Witness for the amended C7 on a 40-sample constant series, where the
signal line is defined (and zero) at index 33. -/
theorem c7_witness :
    ∃ w, ((MacdRsiSeparation.calculate_macd (List.replicate 40 (100:ℚ)) 12 26 9).1)[33]? =
      some (some w) :=
  c7_macd_rsi_sep_propagates (List.replicate 40 (100:ℚ)) 33 0 (by decide)

lemma rsiOf_bounds (ag al : ℚ) (hag : 0 ≤ ag) (hal : 0 ≤ al) :
    0 ≤ Ind.rsiOf ag al ∧ Ind.rsiOf ag al ≤ 100 ∧ (Ind.rsiOf ag al = 100 ↔ al = 0) := by
  unfold Ind.rsiOf
  by_cases hz : al = 0
  · rw [if_pos hz]
    exact ⟨by norm_num, le_refl _, by simp [hz]⟩
  · rw [if_neg hz]
    have hal' : 0 < al := lt_of_le_of_ne hal (Ne.symm hz)
    have hrs : 0 ≤ ag / al := div_nonneg hag (le_of_lt hal')
    have hden : (1:ℚ) ≤ 1 + ag / al := by linarith
    have ht0 : 0 < 100 / (1 + ag / al) := div_pos (by norm_num) (by linarith)
    have ht1 : 100 / (1 + ag / al) ≤ 100 := div_le_self (by norm_num) hden
    refine ⟨by linarith, by linarith, ?_⟩
    constructor
    · intro hc
      exact absurd (by linarith : 100 / (1 + ag / al) = 0) (ne_of_gt ht0)
    · intro hc
      exact absurd hc hz

lemma rsiSeq_mem_bounds (period : ℕ) (hp : 1 ≤ period) :
    ∀ (pairs : List (ℚ × ℚ)) (ag al : ℚ), 0 ≤ ag → 0 ≤ al →
    (∀ p ∈ pairs, 0 ≤ p.1 ∧ 0 ≤ p.2) →
    ∀ v ∈ Ind.rsiSeq period pairs ag al, 0 ≤ v ∧ v ≤ 100 := by
  intro pairs
  induction pairs with
  | nil => intro ag al _ _ _ v hv; simp [Ind.rsiSeq] at hv
  | cons p rest ih =>
    intro ag al hag hal hall v hv
    obtain ⟨g, l⟩ := p
    have hpm : (0:ℚ) ≤ (period:ℚ) - 1 := by
      have : (1:ℚ) ≤ (period:ℚ) := by exact_mod_cast hp
      linarith
    have hper : (0:ℚ) ≤ (period:ℚ) := by positivity
    have hg : 0 ≤ g := (hall (g, l) (List.mem_cons_self _ _)).1
    have hl : 0 ≤ l := (hall (g, l) (List.mem_cons_self _ _)).2
    have hag2 : 0 ≤ (ag * ((period:ℚ) - 1) + g) / period :=
      div_nonneg (by positivity) hper
    have hal2 : 0 ≤ (al * ((period:ℚ) - 1) + l) / period :=
      div_nonneg (by positivity) hper
    simp only [Ind.rsiSeq] at hv
    rcases List.mem_cons.1 hv with hv | hv
    · subst hv
      obtain ⟨b1, b2, _⟩ := rsiOf_bounds _ _ hag2 hal2
      exact ⟨b1, b2⟩
    · exact ih _ _ hag2 hal2 (fun q hq => hall q (List.mem_cons_of_mem _ hq)) v hv

/-- C8 counterexample: the claim "RSI is exactly 100 at every index where all
deltas in the trailing period-length window are gains" fails: with period 2
and prices 10, 9, 10, 11, 12, the final RSI value is 87.5, although both of
its trailing deltas (10 to 11 and 11 to 12) are gains — Wilder smoothing
keeps the memory of the earlier 10 to 9 loss, so the average loss never
returns to zero. -/
theorem c8_all_gain_window_not_100_cx :
    Ind.calculate_rsi [10, 9, 10, 11, 12] 2 =
      [none, some 50, some 75, some (175/2)] ∧
    (0:ℚ) < 11 - 10 ∧ (0:ℚ) < 12 - 11 ∧ ¬ ((175:ℚ)/2 = 100) := by
  exact ⟨by decide, by decide, by decide, by decide⟩

/-- C8 (amended): every defined RSI value produced by `calculate_rsi` (the
identical routine of align_momentum.py, bollinger_volume.py and
macd_rsi_separation.py) lies in [0, 100]; each value is `rsiOf avg_gain
avg_loss`, which is 100 when the smoothed average loss is zero and
`100 - 100/(1 + avg_gain/avg_loss)` otherwise; and for nonnegative averages
it equals 100 exactly when the smoothed average loss is zero — an all-gain
trailing window is not sufficient. -/
theorem c8_rsi_range (data : List ℚ) (period : ℕ) (hp : 1 ≤ period) :
    (∀ v : ℚ, some v ∈ Ind.calculate_rsi data period → 0 ≤ v ∧ v ≤ 100) ∧
    (∀ ag al : ℚ, 0 ≤ ag → 0 ≤ al →
      0 ≤ Ind.rsiOf ag al ∧ Ind.rsiOf ag al ≤ 100 ∧ (Ind.rsiOf ag al = 100 ↔ al = 0)) := by
  refine ⟨?_, fun ag al hag hal => rsiOf_bounds ag al hag hal⟩
  intro v hv
  unfold Ind.calculate_rsi at hv
  by_cases hlen : data.length < period + 1
  · rw [if_pos hlen] at hv
    have := List.eq_of_mem_replicate hv
    exact absurd this (by simp)
  · rw [if_neg hlen] at hv
    dsimp only at hv
    set deltas := List.zipWith (fun cur prev => cur - prev) (data.drop 1) data with hdel
    have hgainsnn : ∀ x ∈ deltas.map (fun d => max d 0), 0 ≤ x := by
      intro x hx
      obtain ⟨d, _, hd⟩ := List.mem_map.1 hx
      rw [← hd]; exact le_max_right d 0
    have hlossnn : ∀ x ∈ deltas.map (fun d => max (-d) 0), 0 ≤ x := by
      intro x hx
      obtain ⟨d, _, hd⟩ := List.mem_map.1 hx
      rw [← hd]; exact le_max_right (-d) 0
    have hper : (0:ℚ) ≤ (period:ℚ) := by positivity
    have hag0 : 0 ≤ ((deltas.map (fun d => max d 0)).take period).sum / period := by
      apply div_nonneg _ hper
      exact List.sum_nonneg (fun x hx => hgainsnn x (List.mem_of_mem_take hx))
    have hal0 : 0 ≤ ((deltas.map (fun d => max (-d) 0)).take period).sum / period := by
      apply div_nonneg _ hper
      exact List.sum_nonneg (fun x hx => hlossnn x (List.mem_of_mem_take hx))
    rcases List.mem_cons.1 hv with hv | hv
    · exact absurd hv (by simp)
    rcases List.mem_cons.1 hv with hv | hv
    · simp only [Option.some.injEq] at hv
      subst hv
      obtain ⟨b1, b2, _⟩ := rsiOf_bounds _ _ hag0 hal0
      exact ⟨b1, b2⟩
    · obtain ⟨w, hw, hws⟩ := List.mem_map.1 hv
      simp only [Option.some.injEq] at hws
      subst hws
      refine rsiSeq_mem_bounds period hp _ _ _ hag0 hal0 ?_ w hw
      intro q hq
      obtain ⟨h1, h2⟩ := List.of_mem_zip hq
      exact ⟨hgainsnn _ (List.mem_of_mem_drop h1), hlossnn _ (List.mem_of_mem_drop h2)⟩

/-- Witness for the amended C8: the RSI value 50 produced on a concrete
series is within bounds. -/
theorem c8_witness : (0:ℚ) ≤ 50 ∧ (50:ℚ) ≤ 100 :=
  (c8_rsi_range [10, 9, 10, 11, 12] 2 (by norm_num)).1 50 (by decide)

/-- C9 counterexample: when the ATR is zero (16 flat bars, window of exactly
zero True Ranges), align_momentum's `calculate_adx` does *not* substitute
DI = 0: it appends the undefined marker `None` to both DI lists (lines
117-124, `else` branch). -/
theorem c9_di_none_when_atr_zero_cx :
    (AlignMomentum.atr (List.replicate 16 (100:ℚ)) (List.replicate 16 100)
        (List.replicate 16 100) 14)[14]? = some (some 0) ∧
    (AlignMomentum.plus_di_list (List.replicate 16 (100:ℚ)) (List.replicate 16 100)
        (List.replicate 16 100) 14)[14]? = some none ∧
    (AlignMomentum.minus_di_list (List.replicate 16 (100:ℚ)) (List.replicate 16 100)
        (List.replicate 16 100) 14)[14]? = some none := by
  exact ⟨by decide, by decide, by decide⟩

/-- C9 (amended): the zero-denominator substitutes that do exist are
Stochastic %K = 50 when the trailing high/low range is zero and RSI = 100
when the average loss is zero; but when the ATR is zero the DI values are
set to the undefined marker `None`, not to 0 (the zero substitute at the
next stage is DX = 0 when +DI + -DI = 0). -/
theorem c9_degenerate_range_substitutes :
    (∀ (highs lows closes : List ℚ) (kp dp i : ℕ), kp ≤ closes.length → kp ≤ i + 1 →
      i < closes.length →
      (window highs kp i).max?.getD 0 = (window lows kp i).min?.getD 0 →
      ((AlignMomentum.calculate_stochastic highs lows closes kp dp).1)[i]? =
        some (some 50)) ∧
    (∀ ag : ℚ, Ind.rsiOf ag 0 = 100) ∧
    (∀ (highs lows closes : List ℚ) (period i : ℕ),
      (AlignMomentum.atr highs lows closes period)[i]? = some (some 0) →
      (AlignMomentum.plus_di_list highs lows closes period)[i]? = some none ∧
      (AlignMomentum.minus_di_list highs lows closes period)[i]? = some none) := by
  refine ⟨?_, ?_, ?_⟩
  · intro highs lows closes kp dp i hkp hki hi hrange
    unfold AlignMomentum.calculate_stochastic
    rw [if_neg (by omega)]
    dsimp only
    rw [List.getElem?_map, List.getElem?_range hi]
    simp only [Option.map_some']
    rw [if_neg (by omega)]
    rw [if_pos hrange]
  · intro ag
    simp [Ind.rsiOf]
  · intro highs lows closes period i hatr
    have hi : i < (AlignMomentum.atr highs lows closes period).length := by
      by_contra hc
      rw [List.getElem?_eq_none (by omega)] at hatr
      exact absurd hatr (by simp)
    constructor
    · unfold AlignMomentum.plus_di_list
      rw [List.getElem?_map, List.getElem?_range hi]
      simp only [Option.map_some']
      rw [hatr]
      simp
    · unfold AlignMomentum.minus_di_list
      rw [List.getElem?_map, List.getElem?_range hi]
      simp only [Option.map_some']
      rw [hatr]
      simp

lemma scanLoop_length_le_one {ρ : Type} (f : ℕ → Option ρ) (js : List ℕ) :
    (scanLoop f js).length ≤ 1 := by
  induction js with
  | nil => simp [scanLoop]
  | cons i rest ih =>
    unfold scanLoop
    cases hf : f i with
    | none => exact ih
    | some r => simp

lemma scanLoop_eq_findSome {ρ : Type} (f : ℕ → Option ρ) (js : List ℕ) :
    scanLoop f js = (js.findSome? f).toList := by
  induction js with
  | nil => rfl
  | cons i rest ih =>
    unfold scanLoop
    rw [List.findSome?_cons]
    cases hf : f i with
    | none => exact ih
    | some r => rfl

lemma findSome_if_eq_find (p : ℕ → Bool) (js : List ℕ) :
    js.findSome? (fun i => if p i then some i else none) = js.find? p := by
  induction js with
  | nil => rfl
  | cons i rest ih =>
    rw [List.findSome?_cons, List.find?_cons]
    by_cases hp : p i <;> simp [hp, ih]

lemma bollinger_emit_eq_if (ts : List Bar) (i : ℕ) :
    BollingerVolume.emit ts i =
      (if ((BollingerVolume.verdict ts i).1 &&
          (BollingerVolume.find_bb_lower_touch i (ts.map Bar.close)
            (BollingerVolume.calculate_bollinger_bands (ts.map Bar.close) 20 2).2.2).isSome) then
        some i else none) := by
  unfold BollingerVolume.emit
  by_cases hv : (BollingerVolume.verdict ts i).1
  · rw [if_pos hv]
    cases ht : BollingerVolume.find_bb_lower_touch i (ts.map Bar.close)
        (BollingerVolume.calculate_bollinger_bands (ts.map Bar.close) 20 2).2.2 with
    | none => simp [hv, ht]
    | some j => simp [hv, ht]
  · simp only [Bool.not_eq_true] at hv
    simp [hv]

/-- C5 counterexample: in `find_bollinger_volume_stocks` the backward scan
does *not* stop at the first passing index: on this 160-bar series, index
146 (inside the scan window [120, 160)) passes all six pipeline stages, but
its close-based lower-band touch lookup fails, so the loop `continue`s past
it, and — no other index passing — the scan emits nothing at all. -/
theorem c5_bollinger_skips_passing_index_cx :
    c5Ts.length = 160 ∧
    BollingerVolume.verdict c5Ts 146 = (true, 6) ∧
    BollingerVolume.find_bb_lower_touch 146 (c5Ts.map Bar.close)
      (BollingerVolume.calculate_bollinger_bands (c5Ts.map Bar.close) 20 2).2.2 = none ∧
    BollingerVolume.scan c5Ts 120 160 = [] := by
  exact ⟨by decide, by decide, by decide, by decide⟩

/-- C5 (amended): every per-instrument scan emits at most one record; the
forward scan of `find_momentum_trend_stocks` stops at the first index whose
staged check passes; the backward scan of `find_bollinger_volume_stocks`
stops at the first (i.e. most recent) index that *both* passes the staged
check *and* has a close-based lower-band touch within 3 bars — a passing
index without such a touch is skipped and scanning continues. -/
theorem c5_scan_emits_at_most_one :
    (∀ {ρ : Type} (f : ℕ → Option ρ) (js : List ℕ), (scanLoop f js).length ≤ 1) ∧
    (∀ (ts : List Bar) (s e : ℕ), ¬ ts.length < 150 →
      MomentumTrend.scan ts s e =
        ((List.range' s (e - s)).find? (fun i => (MomentumTrend.verdict ts i).1)).toList) ∧
    (∀ (ts : List Bar) (s e : ℕ), ¬ ts.length < 150 →
      BollingerVolume.scan ts s e =
        (((List.range' s (e - s)).reverse).find? (fun i =>
          (BollingerVolume.verdict ts i).1 &&
          (BollingerVolume.find_bb_lower_touch i (ts.map Bar.close)
            (BollingerVolume.calculate_bollinger_bands (ts.map Bar.close) 20 2).2.2).isSome)).toList) := by
  refine ⟨fun f js => scanLoop_length_le_one f js, ?_, ?_⟩
  · intro ts s e h
    unfold MomentumTrend.scan
    rw [if_neg h, scanLoop_eq_findSome, findSome_if_eq_find]
  · intro ts s e h
    unfold BollingerVolume.scan
    rw [if_neg h, scanLoop_eq_findSome]
    have he : BollingerVolume.emit ts = fun i =>
        (if ((BollingerVolume.verdict ts i).1 &&
            (BollingerVolume.find_bb_lower_touch i (ts.map Bar.close)
              (BollingerVolume.calculate_bollinger_bands (ts.map Bar.close) 20 2).2.2).isSome) then
          some i else none) :=
      funext (bollinger_emit_eq_if ts)
    rw [he, findSome_if_eq_find]

/-- Witness for the amended C5: the backward-scan characterization applied
to the concrete 160-bar counterexample series. -/
theorem c5_witness :
    BollingerVolume.scan c5Ts 120 160 =
      (((List.range' 120 (160 - 120)).reverse).find? (fun i =>
        (BollingerVolume.verdict c5Ts i).1 &&
        (BollingerVolume.find_bb_lower_touch i (c5Ts.map Bar.close)
          (BollingerVolume.calculate_bollinger_bands (c5Ts.map Bar.close) 20 2).2.2).isSome)).toList :=
  c5_scan_emits_at_most_one.2.2 c5Ts 120 160 (by decide)

lemma getElem_eq_of_take_eq {α : Type} (l₁ l₂ : List α) (n i : ℕ)
    (h : l₁.take n = l₂.take n) (hi : i < n) : l₁[i]? = l₂[i]? := by
  have e := congrArg (fun l => l[i]?) h
  simpa [List.getElem?_take, hi] using e

lemma take_mono_eq {α : Type} (l₁ l₂ : List α) (n k : ℕ) (h : l₁.take n = l₂.take n)
    (hk : k ≤ n) : l₁.take k = l₂.take k := by
  have e := congrArg (List.take k) h
  rwa [List.take_take, List.take_take, min_eq_left hk] at e

lemma drop_take_eq_of_take_eq {α : Type} (l₁ l₂ : List α) (n a b : ℕ)
    (h : l₁.take n = l₂.take n) (hab : a + b ≤ n) :
    (l₁.drop a).take b = (l₂.drop a).take b := by
  have h1 := congrArg (List.drop a) h
  rw [List.drop_take, List.drop_take] at h1
  have h2 := congrArg (List.take b) h1
  rwa [List.take_take, List.take_take, min_eq_left (by omega)] at h2

lemma length_calculate_ma (data : List ℚ) (period : ℕ) :
    (Ind.calculate_ma data period).length = data.length := by
  unfold Ind.calculate_ma
  split <;> simp

lemma length_find_highest (data : List ℚ) (period : ℕ) :
    (Ind.find_highest data period).length = data.length := by
  unfold Ind.find_highest
  split <;> simp

lemma length_macd_fst (d : List ℚ) : ((Ind.calculate_macd d 12 26 9).1).length = d.length := by
  unfold Ind.calculate_macd
  dsimp only
  rw [List.length_zipWith, length_calculate_ema _ 12 (by norm_num),
    length_calculate_ema _ 26 (by norm_num), min_self]

lemma length_macd_snd (d : List ℚ) : ((Ind.calculate_macd d 12 26 9).2).length = d.length := by
  unfold Ind.calculate_macd
  dsimp only
  rw [length_calculate_ema _ 9 (by norm_num), List.length_map, List.length_zipWith,
    length_calculate_ema _ 12 (by norm_num), length_calculate_ema _ 26 (by norm_num), min_self]

lemma ma_getElem_eq_of_take_eq (d₁ d₂ : List ℚ) (p i : ℕ)
    (hl₁ : p ≤ d₁.length) (hl₂ : p ≤ d₂.length) (hi₁ : i < d₁.length) (hi₂ : i < d₂.length)
    (h : d₁.take (i + 1) = d₂.take (i + 1)) :
    (Ind.calculate_ma d₁ p)[i]? = (Ind.calculate_ma d₂ p)[i]? := by
  unfold Ind.calculate_ma
  rw [if_neg (by omega), if_neg (by omega)]
  rw [List.getElem?_map, List.getElem?_range hi₁, List.getElem?_map, List.getElem?_range hi₂]
  simp only [Option.map_some']
  by_cases hip : i + 1 < p
  · rw [if_pos hip, if_pos hip]
  · rw [if_neg hip, if_neg hip]
    have hw : window d₁ p i = window d₂ p i :=
      drop_take_eq_of_take_eq d₁ d₂ (i + 1) (i + 1 - p) p h (by omega)
    rw [hw]

lemma fh_getElem_eq_of_take_eq (d₁ d₂ : List ℚ) (p i : ℕ)
    (hl₁ : p ≤ d₁.length) (hl₂ : p ≤ d₂.length) (hi₁ : i < d₁.length) (hi₂ : i < d₂.length)
    (h : d₁.take (i + 1) = d₂.take (i + 1)) :
    (Ind.find_highest d₁ p)[i]? = (Ind.find_highest d₂ p)[i]? := by
  unfold Ind.find_highest
  rw [if_neg (by omega), if_neg (by omega)]
  rw [List.getElem?_map, List.getElem?_range hi₁, List.getElem?_map, List.getElem?_range hi₂]
  simp only [Option.map_some']
  by_cases hip : i + 1 < p
  · rw [if_pos hip, if_pos hip]
  · rw [if_neg hip, if_neg hip]
    have hw : window d₁ p i = window d₂ p i :=
      drop_take_eq_of_take_eq d₁ d₂ (i + 1) (i + 1 - p) p h (by omega)
    rw [hw]

lemma emaFrom_take_eq (m : ℚ) (k : ℕ) :
    ∀ (prev : ℚ) (xs₁ xs₂ : List ℚ), xs₁.take k = xs₂.take k →
    (Ind.emaFrom m prev xs₁).take k = (Ind.emaFrom m prev xs₂).take k := by
  induction k with
  | zero => intro prev xs₁ xs₂ _; simp
  | succ k ih =>
    intro prev xs₁ xs₂ h
    cases xs₁ with
    | nil =>
      cases xs₂ with
      | nil => rfl
      | cons y ys => simp at h
    | cons x xs =>
      cases xs₂ with
      | nil => simp at h
      | cons y ys =>
        simp only [List.take_succ_cons, List.cons.injEq] at h
        obtain ⟨hxy, ht⟩ := h
        subst hxy
        simp only [Ind.emaFrom, List.take_succ_cons, List.cons.injEq]
        exact ⟨trivial, ih _ _ _ ht⟩

lemma ema_take_eq_of_take_eq (d₁ d₂ : List ℚ) (p n : ℕ) (hp : 1 ≤ p)
    (hl₁ : p ≤ d₁.length) (hl₂ : p ≤ d₂.length) (h : d₁.take n = d₂.take n) :
    (Ind.calculate_ema d₁ p).take n = (Ind.calculate_ema d₂ p).take n := by
  unfold Ind.calculate_ema
  rw [if_neg (by omega), if_neg (by omega)]
  dsimp only
  rw [List.take_append_eq_append_take, List.take_append_eq_append_take]
  simp only [List.length_replicate]
  congr 1
  rcases Nat.eq_zero_or_pos (n - (p - 1)) with hk | hk
  · rw [hk]; simp
  · have hnp : p ≤ n := by omega
    have hsma : d₁.take p = d₂.take p := take_mono_eq _ _ n p h hnp
    rw [← List.map_take, ← List.map_take]
    congr 1
    obtain ⟨k, hk'⟩ : ∃ k, n - (p - 1) = k + 1 := ⟨n - (p - 1) - 1, by omega⟩
    rw [hk']
    rw [List.take_succ_cons, List.take_succ_cons, hsma]
    congr 1
    apply emaFrom_take_eq
    exact drop_take_eq_of_take_eq d₁ d₂ n p k h (by omega)

lemma macd_take_eq_of_take_eq (d₁ d₂ : List ℚ) (n : ℕ)
    (hl₁ : 26 ≤ d₁.length) (hl₂ : 26 ≤ d₂.length) (h : d₁.take n = d₂.take n) :
    ((Ind.calculate_macd d₁ 12 26 9).1).take n = ((Ind.calculate_macd d₂ 12 26 9).1).take n := by
  unfold Ind.calculate_macd
  dsimp only
  rw [List.take_zipWith, List.take_zipWith]
  rw [ema_take_eq_of_take_eq d₁ d₂ 12 n (by norm_num) (by omega) (by omega) h,
    ema_take_eq_of_take_eq d₁ d₂ 26 n (by norm_num) hl₁ hl₂ h]

lemma macd_signal_getElem_eq_of_take_eq (d₁ d₂ : List ℚ) (i : ℕ)
    (hl₁ : 26 ≤ d₁.length) (hl₂ : 26 ≤ d₂.length) (hi₁ : i < d₁.length) (hi₂ : i < d₂.length)
    (h : d₁.take (i + 1) = d₂.take (i + 1)) :
    ((Ind.calculate_macd d₁ 12 26 9).2)[i]? = ((Ind.calculate_macd d₂ 12 26 9).2)[i]? := by
  have hmt := macd_take_eq_of_take_eq d₁ d₂ (i + 1) hl₁ hl₂ h
  have hvalid : (((Ind.calculate_macd d₁ 12 26 9).1).map (fun mo => mo.getD 0)).take (i + 1) =
      (((Ind.calculate_macd d₂ 12 26 9).1).map (fun mo => mo.getD 0)).take (i + 1) := by
    rw [← List.map_take, ← List.map_take, hmt]
  have hsig : ∀ d : List ℚ, (Ind.calculate_macd d 12 26 9).2 =
      Ind.calculate_ema (((Ind.calculate_macd d 12 26 9).1).map (fun mo => mo.getD 0)) 9 := by
    intro d
    unfold Ind.calculate_macd
    dsimp only
  rw [hsig, hsig]
  have e := ema_take_eq_of_take_eq _ _ 9 (i + 1) (by norm_num)
    (by rw [List.length_map, length_macd_fst]; omega)
    (by rw [List.length_map, length_macd_fst]; omega) hvalid
  exact getElem_eq_of_take_eq _ _ (i + 1) i e (by omega)

lemma check_congr (idx : ℕ)
    (c₁ h₁ v₁ c₂ h₂ v₂ : List ℚ)
    (a₁ b₁ g₁ m₁ s₁ w₁ a₂ b₂ g₂ m₂ s₂ w₂ : List (Option ℚ))
    (hg₁ : ¬ (c₁.length ≤ idx ∨ h₁.length ≤ idx ∨ v₁.length ≤ idx ∨ a₁.length ≤ idx ∨
      b₁.length ≤ idx ∨ g₁.length ≤ idx ∨ m₁.length ≤ idx ∨ s₁.length ≤ idx ∨ w₁.length ≤ idx))
    (hg₂ : ¬ (c₂.length ≤ idx ∨ h₂.length ≤ idx ∨ v₂.length ≤ idx ∨ a₂.length ≤ idx ∨
      b₂.length ≤ idx ∨ g₂.length ≤ idx ∨ m₂.length ≤ idx ∨ s₂.length ≤ idx ∨ w₂.length ≤ idx))
    (e_c : c₁[idx]? = c₂[idx]?) (e_v : v₁[idx]? = v₂[idx]?)
    (e_a : a₁[idx]? = a₂[idx]?) (e_b : b₁[idx]? = b₂[idx]?)
    (e_g : g₁[idx - 1]? = g₂[idx - 1]?) (e_m : m₁[idx]? = m₂[idx]?)
    (e_s : s₁[idx]? = s₂[idx]?) (e_w : w₁[idx]? = w₂[idx]?) :
    MomentumTrend.check idx c₁ h₁ v₁ a₁ b₁ g₁ m₁ s₁ w₁ =
    MomentumTrend.check idx c₂ h₂ v₂ a₂ b₂ g₂ m₂ s₂ w₂ := by
  unfold MomentumTrend.check
  by_cases h120 : idx < 120
  · rw [if_pos h120, if_pos h120]
  · rw [if_neg h120, if_neg h120, if_neg hg₁, if_neg hg₂,
      e_a, e_b, e_m, e_s, e_w, e_g, e_c, e_v]

/-- C10 (amended): `momentum_trend`'s staged check has no lookahead — for
any two bar series of length at least 150 that agree on all bars up to a
candidate index `i` lying inside both series, the verdict (passed, stage
reached) at `i` is the same, no matter how the bars after `i` differ.
(`align_momentum`'s checker does *not* have this property: its misaligned
RSI list makes the verdict at `i` depend on bars up to `i + 13`.) -/
theorem c10_momentum_no_lookahead (A B : List Bar) (i : ℕ)
    (hA : 150 ≤ A.length) (hB : 150 ≤ B.length) (hiA : i < A.length) (hiB : i < B.length)
    (h : A.take (i + 1) = B.take (i + 1)) :
    MomentumTrend.verdict A i = MomentumTrend.verdict B i := by
  have hc : (A.map Bar.close).take (i + 1) = (B.map Bar.close).take (i + 1) := by
    rw [← List.map_take, ← List.map_take, h]
  have hh : (A.map Bar.high).take (i + 1) = (B.map Bar.high).take (i + 1) := by
    rw [← List.map_take, ← List.map_take, h]
  have hv : (A.map Bar.volume).take (i + 1) = (B.map Bar.volume).take (i + 1) := by
    rw [← List.map_take, ← List.map_take, h]
  have lA : (A.map Bar.close).length = A.length := List.length_map ..
  have lB : (B.map Bar.close).length = B.length := List.length_map ..
  have lAh : (A.map Bar.high).length = A.length := List.length_map ..
  have lBh : (B.map Bar.high).length = B.length := List.length_map ..
  have lAv : (A.map Bar.volume).length = A.length := List.length_map ..
  have lBv : (B.map Bar.volume).length = B.length := List.length_map ..
  unfold MomentumTrend.verdict
  dsimp only
  apply check_congr
  · rw [lA, lAh, lAv, length_calculate_ma, length_calculate_ma, length_find_highest,
      length_macd_fst, length_macd_snd, length_calculate_ma, lA, lAh, lAv]
    omega
  · rw [lB, lBh, lBv, length_calculate_ma, length_calculate_ma, length_find_highest,
      length_macd_fst, length_macd_snd, length_calculate_ma, lB, lBh, lBv]
    omega
  · exact getElem_eq_of_take_eq _ _ (i + 1) i hc (by omega)
  · exact getElem_eq_of_take_eq _ _ (i + 1) i hv (by omega)
  · exact ma_getElem_eq_of_take_eq _ _ 60 i (by omega) (by omega) (by omega) (by omega) hc
  · exact ma_getElem_eq_of_take_eq _ _ 120 i (by omega) (by omega) (by omega) (by omega) hc
  · exact fh_getElem_eq_of_take_eq _ _ 20 (i - 1) (by omega) (by omega) (by omega) (by omega)
      (take_mono_eq _ _ (i + 1) (i - 1 + 1) hh (by omega))
  · exact getElem_eq_of_take_eq _ _ (i + 1) i
      (macd_take_eq_of_take_eq _ _ (i + 1) (by omega) (by omega) hc) (by omega)
  · exact macd_signal_getElem_eq_of_take_eq _ _ i (by omega) (by omega) (by omega) (by omega) hc
  · exact ma_getElem_eq_of_take_eq _ _ 20 i (by omega) (by omega) (by omega) (by omega) hv

/-- C10 counterexample: `align_momentum`'s staged check *does* look ahead:
the 170-bar series `c10B` and its 150-bar truncation `c10A` agree on every
bar up to index 140 (both well over 150 bars long, 140 inside both scan
windows), yet the verdicts at 140 differ — (false, 0) on the truncation
(the misaligned RSI list, 13 entries shorter than the series, fails the
index-range guard) versus (false, 1) on the longer series. -/
theorem c10_align_lookahead_cx :
    c10A.length = 150 ∧ c10B.length = 170 ∧ c10A.take 141 = c10B.take 141 ∧
    AlignMomentum.verdict c10A 140 = (false, 0) ∧
    AlignMomentum.verdict c10B 140 = (false, 1) ∧
    ((false, 0) : Bool × ℕ) ≠ (false, 1) := by
  refine ⟨by decide, by decide, ?_, by decide, by decide, by decide⟩
  show (c10B.take 150).take 141 = c10B.take 141
  rw [List.take_take]
  norm_num

/-- Witness for the amended C10, applied to the concrete 150-bar series
against itself at index 140. -/
theorem c10_witness :
    MomentumTrend.verdict c10A 140 = MomentumTrend.verdict c10A 140 :=
  c10_momentum_no_lookahead c10A c10A 140 (by decide) (by decide) (by decide) (by decide) rfl

/-- Witness for the amended C9: the DI-is-None consequence applied at the
concrete flat series. -/
theorem c9_witness :
    (AlignMomentum.plus_di_list (List.replicate 16 (100:ℚ)) (List.replicate 16 100)
        (List.replicate 16 100) 14)[14]? = some none ∧
    (AlignMomentum.minus_di_list (List.replicate 16 (100:ℚ)) (List.replicate 16 100)
        (List.replicate 16 100) 14)[14]? = some none :=
  c9_degenerate_range_substitutes.2.2 (List.replicate 16 (100:ℚ))
    (List.replicate 16 100) (List.replicate 16 100) 14 14 (by decide)

end BnfStock
